import Mathlib

/-!
# Load-test engine of `main.go`

A shallow embedding of the load-generation tool: the data model (`Config`,
`Result`, `Report`), the validation of the configuration, the body of a worker,
the collecting loop of `runLoadTest`, and the goroutine pipeline of
`runLoadTest` as an executable step function driven by a scheduler.

Go's `int` is modelled by `Int`: every counter of the program is bounded by the
number of requests, which is itself the capacity of an allocated channel, so no
counter can wrap.  A `map[int]int` is modelled by an association list with
unique keys; reading a missing key gives the zero value.  The largest channel
capacity that `make` can allocate is fixed by the Go runtime, not by `main.go`;
it is a parameter (`Runtime`) of the run.
-/

namespace LoadTest

/-! ## Data model (main.go, lines 12-33) -/

/-- Config holds the CLI configuration. -/
structure Config where
  URL : String
  Requests : Int
  Concurrency : Int
deriving DecidableEq, Repr

/-- Result holds the result of a single HTTP request; `Error = none` is Go's
`nil` error, `Duration` is in nanoseconds. -/
structure Result where
  StatusCode : Int
  Duration : Int
  Error : Option String
deriving DecidableEq, Repr

/-- A Go `map[int]int`, as the list of its entries. -/
abbrev GoMap := List (Int × Int)

/-- Entry stored under key `c`, if any (the two-valued read `v, ok := m[c]`). -/
def GoMap.find? : GoMap → Int → Option Int
  | [], _ => none
  | (k, v) :: rest, c => if k = c then some v else GoMap.find? rest c

/-- Read `m[c]`: the stored value, or the zero value when `c` is not a key. -/
def GoMap.get (m : GoMap) (c : Int) : Int :=
  (GoMap.find? m c).getD 0

/-- Write `m[c] = v`: overwrite the entry of an existing key, else add one. -/
def GoMap.set : GoMap → Int → Int → GoMap
  | [], c, v => [(c, v)]
  | (k, x) :: rest, c, v => if k = c then (k, v) :: rest else (k, x) :: GoMap.set rest c v

/-- The statement `m[c]++`: read, add one, write back. -/
def GoMap.incr (m : GoMap) (c : Int) : GoMap :=
  GoMap.set m c (GoMap.get m c + 1)

/-- Keys of the map. -/
def GoMap.keys (m : GoMap) : List Int :=
  m.map Prod.fst

/-- Sum of the counts of all entries. -/
def GoMap.total : GoMap → Int
  | [] => 0
  | (_, v) :: rest => v + GoMap.total rest

/-- Sum of the counts of the entries whose key is not `c`. -/
def GoMap.totalExcept : GoMap → Int → Int
  | [], _ => 0
  | (k, v) :: rest, c => if k = c then GoMap.totalExcept rest c else v + GoMap.totalExcept rest c

/-- Report holds the final report data. -/
structure Report where
  TotalTime : Int
  TotalRequests : Int
  StatusCodes : GoMap
  SuccessCount : Int
  ErrorCount : Int
deriving DecidableEq, Repr

/-! ## Validation and `main` (main.go, lines 35-86) -/

/-- The function `validateConfig`: `none` is the `nil` error. -/
def validateConfig (config : Config) : Option String :=
  if config.URL = "" then
    some "URL is required. Use --url flag"
  else if config.Requests ≤ 0 then
    some "requests must be greater than 0. Use --requests flag"
  else if config.Concurrency ≤ 0 then
    some "concurrency must be greater than 0. Use --concurrency flag"
  else if config.Concurrency > config.Requests then
    some "concurrency cannot be greater than total requests"
  else
    none

/-- What `main` does with the parsed configuration: either `log.Fatal` with the
validation error, or the call `runLoadTest(config)`. -/
inductive MainOutcome where
  | fatal (msg : String)
  | callsRunLoadTest (config : Config)
deriving DecidableEq, Repr

/-- The control flow of `main` after `parseFlags`, which never returns an error. -/
def mainFlow (config : Config) : MainOutcome :=
  match validateConfig config with
  | some err => MainOutcome.fatal err
  | none => MainOutcome.callsRunLoadTest config

/-! ## The worker body (main.go, lines 146-162) -/

/-- Outcome of one `client.Get(url)`: with a `nil` error a response is always
returned; with an error the response may or may not be `nil` and is not read. -/
inductive GetOutcome where
  | response (status : Int)
  | failure (resp : Option Int) (err : String)
deriving DecidableEq, Repr

/-- The error returned by the call. -/
def GetOutcome.err : GetOutcome → Option String
  | GetOutcome.response _ => none
  | GetOutcome.failure _ e => some e

/-- The Result one iteration of the worker loop builds from the outcome of its
`client.Get` call and the measured duration. -/
def buildResult (out : GetOutcome) (duration : Int) : Result :=
  let result : Result := { StatusCode := 0, Duration := duration, Error := out.err }
  match out with
  | GetOutcome.response status => { result with StatusCode := status }
  | GetOutcome.failure _ _ => result

/-! ## The collecting loop (main.go, lines 122-137) -/

/-- The Report created before the loop: `&Report{StatusCodes: make(map[int]int)}`. -/
def newReport : Report :=
  { TotalTime := 0, TotalRequests := 0, StatusCodes := [], SuccessCount := 0, ErrorCount := 0 }

/-- One iteration of `for result := range resultChan`. -/
def collect (report : Report) (result : Result) : Report :=
  let report := { report with TotalRequests := report.TotalRequests + 1 }
  if result.Error.isSome then
    { report with ErrorCount := report.ErrorCount + 1 }
  else
    let report := { report with StatusCodes := GoMap.incr report.StatusCodes result.StatusCode }
    if result.StatusCode = 200 then
      { report with SuccessCount := report.SuccessCount + 1 }
    else
      report

/-- The collecting loop run over the Results in their order of arrival. -/
def collectAll (results : List Result) : Report :=
  results.foldl collect newReport

/-- The per-status percentage of `displayReport`, `count / TotalRequests * 100`,
in exact arithmetic. -/
def percentage (count total : Int) : ℚ :=
  (count : ℚ) / (total : ℚ) * 100

/-! ## The goroutine pipeline of `runLoadTest` (main.go, lines 88-163)

The goroutines are the body of `runLoadTest` itself, the workers, the
dispatcher (`go func` of line 108) and the closer (`go func` of line 116).
Each one is a small program counter; a scheduler picks which goroutine takes
its next step, and a goroutine that is blocked has no step. -/

/-- A Go channel: the buffered values (oldest first), the capacity given to
`make`, and whether `close` was called. -/
structure Chan (α : Type) where
  buf : List α
  cap : Int
  closed : Bool
deriving DecidableEq, Repr

/-- Outcome of the send statement `c <- v`. -/
inductive SendOutcome (α : Type) where
  | sent (c : Chan α)
  | blocked
  | panics
deriving DecidableEq, Repr

/-- Outcome of one receive of a `range` loop over a channel. -/
inductive RecvOutcome (α : Type) where
  | value (v : α) (c : Chan α)
  | blocked
  | done
deriving DecidableEq, Repr

/-- The statement `c <- v`: a send on a closed channel panics, a send on a
channel with a free buffer slot appends, any other send blocks.  (A send on a
full or unbuffered channel can also hand its value to a receiver that is
waiting; no send of this program is ever in that position, see
`dispatcher_send_succeeds` and `worker_send_succeeds`.) -/
def Chan.send {α : Type} (c : Chan α) (v : α) : SendOutcome α :=
  if c.closed then SendOutcome.panics
  else if (c.buf.length : Int) < c.cap then SendOutcome.sent { c with buf := c.buf ++ [v] }
  else SendOutcome.blocked

/-- One receive of `for ... := range c`: the oldest buffered value if there is
one, the end of the loop if the channel is closed and drained, else blocked. -/
def Chan.recv {α : Type} (c : Chan α) : RecvOutcome α :=
  match c.buf with
  | v :: rest => RecvOutcome.value v { c with buf := rest }
  | [] => if c.closed then RecvOutcome.done else RecvOutcome.blocked

/-- The call `close(c)`; `none` is the panic of closing a closed channel. -/
def Chan.close {α : Type} (c : Chan α) : Option (Chan α) :=
  if c.closed then none else some { c with closed := true }

/-- Program counter of the body of `runLoadTest`. -/
inductive MainPc where
  /-- before the two `make(chan ...)` of lines 92-93 -/
  | start
  /-- at the test `i < config.Concurrency` of the loop of line 102 -/
  | spawning (i : Int)
  /-- about to start the dispatcher goroutine, line 108 -/
  | goDispatcher
  /-- about to start the closer goroutine, line 116 -/
  | goCloser
  /-- at `for result := range resultChan`, line 126 -/
  | collecting
  /-- after `return report` -/
  | returned
deriving DecidableEq, Repr

/-- Program counter of one `worker` goroutine. -/
inductive WorkerPc where
  /-- at `for range requestChan`, line 146 -/
  | waiting
  /-- a token is claimed and `client.Get(url)` has not returned yet -/
  | calling
  /-- the Result is built, at `resultChan <- result`, line 161 -/
  | sending (result : Result)
  /-- the loop is over and the deferred `wg.Done()` has run -/
  | exited
deriving DecidableEq, Repr

/-- Program counter of the dispatcher goroutine (lines 108-113). -/
inductive DispatcherPc where
  | notStarted
  /-- at the test `i < config.Requests` -/
  | looping (i : Int)
  /-- after `close(requestChan)`; `i` is the final value of the loop variable -/
  | finished (i : Int)
deriving DecidableEq, Repr

/-- Program counter of the closer goroutine (lines 116-119). -/
inductive CloserPc where
  | notStarted
  /-- at `wg.Wait()` -/
  | waiting
  /-- after `close(resultChan)` -/
  | finished
deriving DecidableEq, Repr

/-- State of one run of `runLoadTest`. -/
structure State where
  mainPc : MainPc
  /-- counter of the `sync.WaitGroup` -/
  wg : Int
  workers : List WorkerPc
  dispatcher : DispatcherPc
  closer : CloserPc
  requestChan : Chan Int
  resultChan : Chan Result
  report : Report
  /-- a goroutine panicked, which ends the program -/
  panicked : Bool
deriving DecidableEq, Repr

/-- State at the entry of `runLoadTest`. -/
def initState : State :=
  { mainPc := MainPc.start, wg := 0, workers := [], dispatcher := DispatcherPc.notStarted,
    closer := CloserPc.notStarted, requestChan := { buf := [], cap := 0, closed := false },
    resultChan := { buf := [], cap := 0, closed := false }, report := newReport,
    panicked := false }

/-- Choice of the scheduler: the goroutine that takes its next step, with what
the outside world returns to it (the elapsed time read at line 139, the outcome
and duration of a `client.Get`). -/
inductive Action where
  | main (elapsed : Int)
  | dispatcher
  | closer
  | worker (w : Nat) (out : GetOutcome) (duration : Int)
deriving DecidableEq, Repr

/-- What the Go runtime of the platform fixes and `main.go` does not: the
largest capacity `n` for which both `make(chan int, n)` and
`make(chan Result, n)` of lines 92-93 succeed.  Above it `make` panics
("makechan: size out of range"); capacity 0 always succeeds. -/
structure Runtime where
  maxChanCap : Nat
deriving DecidableEq, Repr

/-- Next step of the body of `runLoadTest`. -/
def stepMain (rt : Runtime) (config : Config) (s : State) (elapsed : Int) : Option State :=
  match s.mainPc with
  | MainPc.start =>
      -- make(chan int, config.Requests) and make(chan Result, config.Requests)
      -- panic on a negative size and on a size above the limit of the runtime
      if config.Requests < 0 then some { s with panicked := true }
      else if (rt.maxChanCap : Int) < config.Requests then some { s with panicked := true }
      else some { s with
        requestChan := { buf := [], cap := config.Requests, closed := false },
        resultChan := { buf := [], cap := config.Requests, closed := false },
        mainPc := MainPc.spawning 0 }
  | MainPc.spawning i =>
      if i < config.Concurrency then
        -- wg.Add(1); go worker(...)
        some { s with wg := s.wg + 1, workers := s.workers ++ [WorkerPc.waiting],
                      mainPc := MainPc.spawning (i + 1) }
      else some { s with mainPc := MainPc.goDispatcher }
  | MainPc.goDispatcher =>
      some { s with dispatcher := DispatcherPc.looping 0, mainPc := MainPc.goCloser }
  | MainPc.goCloser =>
      some { s with closer := CloserPc.waiting, report := newReport, mainPc := MainPc.collecting }
  | MainPc.collecting =>
      match s.resultChan.recv with
      | RecvOutcome.value result c =>
          some { s with resultChan := c, report := collect s.report result }
      | RecvOutcome.done =>
          some { s with report := { s.report with TotalTime := elapsed }, mainPc := MainPc.returned }
      | RecvOutcome.blocked => none
  | MainPc.returned => none

/-- Next step of the dispatcher goroutine. -/
def stepDispatcher (config : Config) (s : State) : Option State :=
  match s.dispatcher with
  | DispatcherPc.looping i =>
      if i < config.Requests then
        match s.requestChan.send i with
        | SendOutcome.sent c =>
            some { s with requestChan := c, dispatcher := DispatcherPc.looping (i + 1) }
        | SendOutcome.blocked => none
        | SendOutcome.panics => some { s with panicked := true }
      else
        match s.requestChan.close with
        | some c => some { s with requestChan := c, dispatcher := DispatcherPc.finished i }
        | none => some { s with panicked := true }
  | DispatcherPc.notStarted => none
  | DispatcherPc.finished _ => none

/-- Next step of the closer goroutine: `wg.Wait()` returns once the counter is
zero, then `close(resultChan)`. -/
def stepCloser (s : State) : Option State :=
  match s.closer with
  | CloserPc.waiting =>
      if s.wg = 0 then
        match s.resultChan.close with
        | some c => some { s with resultChan := c, closer := CloserPc.finished }
        | none => some { s with panicked := true }
      else none
  | CloserPc.notStarted => none
  | CloserPc.finished => none

/-- Next step of worker number `w`. -/
def stepWorker (s : State) (w : Nat) (out : GetOutcome) (duration : Int) : Option State :=
  match s.workers[w]? with
  | some WorkerPc.waiting =>
      match s.requestChan.recv with
      | RecvOutcome.value _ c =>
          some { s with requestChan := c, workers := s.workers.set w WorkerPc.calling }
      | RecvOutcome.done =>
          -- the deferred wg.Done(); a negative counter panics
          if s.wg - 1 < 0 then some { s with panicked := true }
          else some { s with wg := s.wg - 1, workers := s.workers.set w WorkerPc.exited }
      | RecvOutcome.blocked => none
  | some WorkerPc.calling =>
      some { s with workers := s.workers.set w (WorkerPc.sending (buildResult out duration)) }
  | some (WorkerPc.sending result) =>
      match s.resultChan.send result with
      | SendOutcome.sent c =>
          some { s with resultChan := c, workers := s.workers.set w WorkerPc.waiting }
      | SendOutcome.blocked => none
      | SendOutcome.panics => some { s with panicked := true }
  | some WorkerPc.exited => none
  | none => none

/-- One step of the run: the chosen goroutine moves; `none` when it cannot
(blocked, finished, not started, or the program has panicked). -/
def step (rt : Runtime) (config : Config) (s : State) (a : Action) : Option State :=
  if s.panicked then none
  else
    match a with
    | Action.main elapsed => stepMain rt config s elapsed
    | Action.dispatcher => stepDispatcher config s
    | Action.closer => stepCloser s
    | Action.worker w out duration => stepWorker s w out duration

/-- Runs a schedule from a state; `none` when some chosen step is not possible. -/
def run (rt : Runtime) (config : Config) : State → List Action → Option State
  | s, [] => some s
  | s, a :: rest => (step rt config s a).bind (fun t => run rt config t rest)

/-- The states a run of `runLoadTest(config)` can be in. -/
def Reachable (rt : Runtime) (config : Config) (s : State) : Prop :=
  ∃ schedule, run rt config initState schedule = some s

/-- A worker that has claimed a token and not yet sent its Result. -/
def WorkerPc.inFlight : WorkerPc → Bool
  | WorkerPc.calling => true
  | WorkerPc.sending _ => true
  | _ => false

/-- Number of `client.Get` calls in flight. -/
def inFlight (s : State) : Nat :=
  s.workers.countP WorkerPc.inFlight

/-- Number of tokens the dispatcher has sent so far (its loop variable). -/
def tokensSent (s : State) : Int :=
  match s.dispatcher with
  | DispatcherPc.notStarted => 0
  | DispatcherPc.looping i => i
  | DispatcherPc.finished i => i

/-- The Config that `validateConfig` accepts. -/
def Config.Valid (config : Config) : Prop :=
  config.URL ≠ "" ∧ 0 < config.Requests ∧ 0 < config.Concurrency ∧
    config.Concurrency ≤ config.Requests

/-- Steps left to a worker: receive or exit (1), the call (1), the send (1),
and the collection of its Result (1). -/
def WorkerPc.weight : WorkerPc → Nat
  | WorkerPc.waiting => 1
  | WorkerPc.calling => 4
  | WorkerPc.sending _ => 3
  | WorkerPc.exited => 0

/-- Steps left to the body of `runLoadTest`, counting those of the goroutines
it has still to start. -/
def MainPc.weight (config : Config) : MainPc → Nat
  | MainPc.start => 2 * config.Concurrency.toNat + 5 * config.Requests.toNat + 7
  | MainPc.spawning i => 2 * (config.Concurrency - i).toNat + 5 * config.Requests.toNat + 6
  | MainPc.goDispatcher => 5 * config.Requests.toNat + 5
  | MainPc.goCloser => 3
  | MainPc.collecting => 1
  | MainPc.returned => 0

/-- Steps left to the dispatcher. -/
def DispatcherPc.weight (config : Config) : DispatcherPc → Nat
  | DispatcherPc.notStarted => 0
  | DispatcherPc.looping i => 5 * (config.Requests - i).toNat + 1
  | DispatcherPc.finished _ => 0

/-- Steps left to the closer. -/
def CloserPc.weight : CloserPc → Nat
  | CloserPc.waiting => 1
  | _ => 0

/-- A bound on the number of steps the run can still take. -/
def stepsLeft (config : Config) (s : State) : Nat :=
  if s.panicked then 0
  else 1 + MainPc.weight config s.mainPc + DispatcherPc.weight config s.dispatcher
    + CloserPc.weight s.closer + (s.workers.map WorkerPc.weight).sum
    + 4 * s.requestChan.buf.length + s.resultChan.buf.length

/-- A worker whose deferred `wg.Done()` has not run yet. -/
def WorkerPc.live : WorkerPc → Bool
  | WorkerPc.exited => false
  | _ => true

/-- The invariant of the pipeline: what holds in every state of every run. -/
structure Inv (rt : Runtime) (config : Config) (s : State) : Prop where
  /-- the only panic is that of `make`, on a negative size or on a size above
  the limit of the runtime, before anything is started -/
  panic : s.panicked = true →
    (config.Requests < 0 ∨ (rt.maxChanCap : Int) < config.Requests) ∧ s.mainPc = MainPc.start
  /-- once made, both channels have capacity `Requests` -/
  started : s.mainPc ≠ MainPc.start →
    0 ≤ config.Requests ∧ s.requestChan.cap = config.Requests ∧
      s.resultChan.cap = config.Requests
  atStart : s.mainPc = MainPc.start →
    s.workers = [] ∧ s.requestChan.buf = [] ∧ s.resultChan.buf = [] ∧ s.report = newReport
  /-- the spawning loop has started `i` workers at its `i`-th test -/
  spawn : ∀ i, s.mainPc = MainPc.spawning i → 0 ≤ i ∧ (s.workers.length : Int) = i
  bound : s.workers.length ≤ config.Concurrency.toNat
  spawned : s.mainPc = MainPc.goDispatcher ∨ s.mainPc = MainPc.goCloser ∨
    s.mainPc = MainPc.collecting ∨ s.mainPc = MainPc.returned →
      s.workers.length = config.Concurrency.toNat
  dispNot : s.dispatcher = DispatcherPc.notStarted ↔
    (s.mainPc = MainPc.start ∨ (∃ i, s.mainPc = MainPc.spawning i) ∨
      s.mainPc = MainPc.goDispatcher)
  closerNot : s.closer = CloserPc.notStarted ↔
    (s.mainPc ≠ MainPc.collecting ∧ s.mainPc ≠ MainPc.returned)
  /-- the WaitGroup counts the workers that have not exited -/
  wgLive : s.wg = (s.workers.countP WorkerPc.live : Nat)
  loop : ∀ i, s.dispatcher = DispatcherPc.looping i → 0 ≤ i ∧ i ≤ config.Requests
  fin : ∀ i, s.dispatcher = DispatcherPc.finished i → i = config.Requests
  reqClosed : s.requestChan.closed = true ↔ ∃ i, s.dispatcher = DispatcherPc.finished i
  /-- every token sent is queued, in flight, a queued Result, or collected -/
  conserve : tokensSent s
    = (s.requestChan.buf.length : Int) + (inFlight s : Int) + (s.resultChan.buf.length : Int)
      + s.report.TotalRequests
  fresh : s.closer = CloserPc.notStarted → s.report = newReport
  /-- the Report is the fold of the Results collected so far -/
  folded : ∃ results t, s.report = { collectAll results with TotalTime := t }
  exitedW : WorkerPc.exited ∈ s.workers →
    s.requestChan.closed = true ∧ s.requestChan.buf = []
  resClosed : s.resultChan.closed = true ↔ s.closer = CloserPc.finished
  closerFin : s.closer = CloserPc.finished → s.wg = 0
  ret : s.mainPc = MainPc.returned → s.resultChan.closed = true ∧ s.resultChan.buf = []
  /-- every Result built by a worker has status 0 when it has an error -/
  wellFormed : ∀ r, (WorkerPc.sending r ∈ s.workers ∨ r ∈ s.resultChan.buf) →
    r.Error ≠ none → r.StatusCode = 0
  /-- the channels were made only if the runtime could allocate them -/
  alloc : s.mainPc ≠ MainPc.start → config.Requests ≤ (rt.maxChanCap : Int)

/-! ## A concrete run -/

/-- A runtime at least as permissive as any 64-bit one: a buffer of 2^61 or
more values of 8 bytes does not fit the address space. -/
def exampleRuntime : Runtime :=
  { maxChanCap := 2305843009213693951 }

/-- Two requests, two workers. -/
def exampleConfig : Config :=
  { URL := "http://localhost:8080", Requests := 2, Concurrency := 2 }

/-- A Config that `validateConfig` accepts, with Requests = 2^62. -/
def hugeConfig : Config :=
  { URL := "http://localhost:8080", Requests := 4611686018427387904, Concurrency := 1 }

/-- A schedule up to the point where both workers have claimed a token. -/
def scheduleBothCalling : List Action :=
  [Action.main 0, Action.main 0, Action.main 0, Action.main 0, Action.main 0, Action.main 0,
   Action.dispatcher, Action.dispatcher,
   Action.worker 0 (GetOutcome.response 200) 5, Action.worker 1 (GetOutcome.response 200) 5]

/-- The state reached by `scheduleBothCalling`. -/
def stateBothCalling : State :=
  { mainPc := MainPc.collecting, wg := 2, workers := [WorkerPc.calling, WorkerPc.calling],
    dispatcher := DispatcherPc.looping 2, closer := CloserPc.waiting,
    requestChan := { buf := [], cap := 2, closed := false },
    resultChan := { buf := [], cap := 2, closed := false }, report := newReport,
    panicked := false }

/-- A schedule of a whole run: one request answered 200, one refused. -/
def scheduleComplete : List Action :=
  scheduleBothCalling ++
  [Action.dispatcher,
   Action.worker 0 (GetOutcome.response 200) 5,
   Action.worker 1 (GetOutcome.failure none "connection refused") 7,
   Action.worker 0 (GetOutcome.response 200) 0, Action.worker 1 (GetOutcome.response 200) 0,
   Action.worker 0 (GetOutcome.response 200) 0, Action.worker 1 (GetOutcome.response 200) 0,
   Action.closer, Action.main 0, Action.main 0, Action.main 12]

/-- The state reached by `scheduleComplete`. -/
def stateReturned : State :=
  { mainPc := MainPc.returned, wg := 0, workers := [WorkerPc.exited, WorkerPc.exited],
    dispatcher := DispatcherPc.finished 2, closer := CloserPc.finished,
    requestChan := { buf := [], cap := 2, closed := true },
    resultChan := { buf := [], cap := 2, closed := true },
    report := { TotalTime := 12, TotalRequests := 2, StatusCodes := [(200, 1)],
                SuccessCount := 1, ErrorCount := 1 },
    panicked := false }

/-! ## Counting the Results of a sequence -/

/-- Number of Results of the sequence whose Error is present. -/
def countErrors (results : List Result) : Nat :=
  results.countP (fun r => r.Error.isSome)

/-- Number of Results of the sequence with Error absent and StatusCode `c`. -/
def countStatus (results : List Result) (c : Int) : Nat :=
  results.countP (fun r => r.Error.isNone && decide (r.StatusCode = c))

end LoadTest

namespace LoadTest

/-! ## Lemmas on maps -/

theorem GoMap.find?_set (m : GoMap) (c v k : Int) :
    GoMap.find? (GoMap.set m c v) k = if c = k then some v else GoMap.find? m k := by
  induction m with
  | nil => simp [GoMap.set, GoMap.find?]
  | cons e rest ih =>
    obtain ⟨a, x⟩ := e
    by_cases h : a = c
    · subst h
      by_cases hk : a = k <;> simp [GoMap.set, GoMap.find?, hk]
    · by_cases hk : a = k
      · subst hk
        have hc : ¬ c = a := fun h' => h h'.symm
        simp [GoMap.set, GoMap.find?, h, hc]
      · simp [GoMap.set, GoMap.find?, h, hk, ih]

theorem GoMap.find?_incr (m : GoMap) (c k : Int) :
    GoMap.find? (GoMap.incr m c) k
      = if c = k then some (GoMap.get m c + 1) else GoMap.find? m k := by
  simp [GoMap.incr, GoMap.find?_set]

theorem GoMap.mem_keys_iff (m : GoMap) (k : Int) :
    k ∈ GoMap.keys m ↔ GoMap.find? m k ≠ none := by
  induction m with
  | nil => simp [GoMap.keys, GoMap.find?]
  | cons e rest ih =>
    obtain ⟨a, x⟩ := e
    by_cases hk : a = k
    · simp [GoMap.keys, GoMap.find?, hk]
    · have hk2 : ¬ k = a := fun h' => hk h'.symm
      simp only [GoMap.keys] at ih
      simp [GoMap.keys, GoMap.find?, hk, hk2, ih]

theorem GoMap.keys_set (m : GoMap) (c v : Int) :
    GoMap.keys (GoMap.set m c v)
      = if c ∈ GoMap.keys m then GoMap.keys m else GoMap.keys m ++ [c] := by
  induction m with
  | nil => simp [GoMap.set, GoMap.keys]
  | cons e rest ih =>
    obtain ⟨a, x⟩ := e
    simp only [GoMap.keys] at ih
    by_cases h : a = c
    · subst h
      simp [GoMap.set, GoMap.keys]
    · have hc : ¬ c = a := fun h' => h h'.symm
      by_cases hm : c ∈ List.map Prod.fst rest
      · simp [GoMap.set, GoMap.keys, h, hc, ih, hm]
      · simp [GoMap.set, GoMap.keys, h, hc, ih, hm]

theorem GoMap.nodup_keys_set (m : GoMap) (c v : Int) (h : (GoMap.keys m).Nodup) :
    (GoMap.keys (GoMap.set m c v)).Nodup := by
  rw [GoMap.keys_set]
  split
  · exact h
  · next hc =>
    rw [List.nodup_append]
    refine ⟨h, List.nodup_singleton c, ?_⟩
    intro a ha hb
    simp at hb
    subst hb
    exact hc ha

theorem GoMap.total_set (m : GoMap) (c v : Int) :
    GoMap.total (GoMap.set m c v) = GoMap.total m - GoMap.get m c + v := by
  induction m with
  | nil => simp [GoMap.set, GoMap.total, GoMap.get, GoMap.find?]
  | cons e rest ih =>
    obtain ⟨a, x⟩ := e
    simp only [GoMap.get] at ih
    by_cases h : a = c
    · simp only [GoMap.set, GoMap.total, GoMap.get, GoMap.find?, h, if_true, Option.getD_some]
      omega
    · simp only [GoMap.set, GoMap.total, GoMap.get, GoMap.find?, h, if_false, ih]
      omega

theorem GoMap.totalExcept_set (m : GoMap) (c v d : Int) :
    GoMap.totalExcept (GoMap.set m c v) d
      = if c = d then GoMap.totalExcept m d else GoMap.totalExcept m d - GoMap.get m c + v := by
  induction m with
  | nil =>
    by_cases hcd : c = d <;> simp [GoMap.set, GoMap.totalExcept, GoMap.get, GoMap.find?, hcd]
  | cons e rest ih =>
    obtain ⟨a, x⟩ := e
    simp only [GoMap.get] at ih
    by_cases h : a = c
    · subst h
      by_cases hcd : a = d
      · simp [GoMap.set, GoMap.totalExcept, hcd]
      · simp only [GoMap.set, GoMap.totalExcept, GoMap.get, GoMap.find?, hcd, if_true, if_false,
          Option.getD_some]
        omega
    · by_cases hcd : c = d
      · subst hcd
        simp only [GoMap.set, GoMap.totalExcept, h, if_false, if_true, ih]
      · by_cases had : a = d
        · subst had
          simp only [GoMap.set, GoMap.totalExcept, GoMap.get, GoMap.find?, h, hcd, if_false,
            if_true, ih]
        · simp only [GoMap.set, GoMap.totalExcept, GoMap.get, GoMap.find?, h, had, hcd, if_false,
            ih]
          omega

theorem GoMap.total_eq_totalExcept (m : GoMap) (d : Int) (h : (GoMap.keys m).Nodup) :
    GoMap.total m = GoMap.totalExcept m d + GoMap.get m d := by
  induction m with
  | nil => simp [GoMap.total, GoMap.totalExcept, GoMap.get, GoMap.find?]
  | cons e rest ih =>
    obtain ⟨a, x⟩ := e
    simp only [GoMap.keys, List.map_cons, List.nodup_cons] at h
    have ih2 := ih h.2
    simp only [GoMap.get] at ih2
    by_cases had : a = d
    · subst had
      have hnot : GoMap.find? rest a = none := by
        by_contra hne
        exact h.1 ((GoMap.mem_keys_iff rest a).2 hne)
      rw [hnot] at ih2
      simp only [GoMap.total, GoMap.totalExcept, GoMap.get, GoMap.find?, if_true, ih2,
        Option.getD_some, Option.getD_none]
      omega
    · simp only [GoMap.total, GoMap.totalExcept, GoMap.get, GoMap.find?, had, if_false, ih2]
      omega

/-! ## The collecting loop as a count of the Results -/

theorem collectAll_append (results : List Result) (r : Result) :
    collectAll (results ++ [r]) = collect (collectAll results) r := by
  simp [collectAll, List.foldl_append]

theorem countErrors_append (results : List Result) (r : Result) :
    countErrors (results ++ [r]) = countErrors results + (if r.Error.isSome then 1 else 0) := by
  simp [countErrors, List.countP_append, List.countP_cons]

theorem countStatus_append (results : List Result) (r : Result) (c : Int) :
    countStatus (results ++ [r]) c
      = countStatus results c + (if r.Error = none ∧ r.StatusCode = c then 1 else 0) := by
  simp [countStatus, List.countP_append, List.countP_cons]

/-- What the map of a Report must hold for a given sequence of Results. -/
theorem find?_of_count (m : GoMap) (n : Nat) (c : Int)
    (h : GoMap.find? m c = if n = 0 then none else some (n : Int)) : GoMap.get m c = n := by
  unfold GoMap.get
  rw [h]
  by_cases hn : n = 0 <;> simp [hn]

/-- Every field of the folded Report, in terms of counts over the sequence. -/
theorem collectAll_counts (results : List Result) :
    (collectAll results).TotalTime = 0 ∧
    (collectAll results).TotalRequests = results.length ∧
    (collectAll results).ErrorCount = countErrors results ∧
    (collectAll results).SuccessCount = countStatus results 200 ∧
    (∀ c, GoMap.find? (collectAll results).StatusCodes c
        = if countStatus results c = 0 then none else some (countStatus results c : Int)) ∧
    (GoMap.keys (collectAll results).StatusCodes).Nodup := by
  induction results using List.reverseRecOn with
  | nil => simp [collectAll, newReport, countErrors, countStatus, GoMap.find?, GoMap.keys]
  | append_singleton rs r ih =>
    obtain ⟨h0, h1, h2, h3, h4, h5⟩ := ih
    rw [collectAll_append]
    cases hE : r.Error with
    | some e =>
      refine ⟨?_, ?_, ?_, ?_, ?_, ?_⟩
      · simp [collect, hE, h0]
      · simp [collect, hE, h1]
      · simp [collect, hE, h2, countErrors_append]
      · simp [collect, hE, h3, countStatus_append]
      · intro c
        simp [collect, hE, h4, countStatus_append]
      · simpa [collect, hE] using h5
    | none =>
      have hget := find?_of_count _ _ r.StatusCode (h4 r.StatusCode)
      refine ⟨?_, ?_, ?_, ?_, ?_, ?_⟩
      · by_cases h200 : r.StatusCode = 200 <;> simp [collect, hE, h0, h200]
      · by_cases h200 : r.StatusCode = 200 <;> simp [collect, hE, h1, h200]
      · by_cases h200 : r.StatusCode = 200 <;> simp [collect, hE, h2, h200, countErrors_append]
      · by_cases h200 : r.StatusCode = 200 <;> simp [collect, hE, h3, h200, countStatus_append]
      · intro c
        have hmap : (collect (collectAll rs) r).StatusCodes
            = GoMap.incr (collectAll rs).StatusCodes r.StatusCode := by
          by_cases h200 : r.StatusCode = 200 <;> simp [collect, hE, h200]
        rw [hmap, GoMap.find?_incr, hget, countStatus_append]
        by_cases hc : r.StatusCode = c
        · subst hc
          simp [hE]
        · simp [hc, h4]
      · have hmap : (collect (collectAll rs) r).StatusCodes
            = GoMap.incr (collectAll rs).StatusCodes r.StatusCode := by
          by_cases h200 : r.StatusCode = 200 <;> simp [collect, hE, h200]
        rw [hmap]
        exact GoMap.nodup_keys_set _ _ _ h5

theorem GoMap.mem_iff_find? (m : GoMap) (h : (GoMap.keys m).Nodup) (k v : Int) :
    (k, v) ∈ m ↔ GoMap.find? m k = some v := by
  induction m with
  | nil => simp [GoMap.find?]
  | cons e rest ih =>
    obtain ⟨a, x⟩ := e
    simp only [GoMap.keys, List.map_cons, List.nodup_cons] at h
    have ih2 := ih h.2
    by_cases hak : a = k
    · subst hak
      have hnot : ∀ y, (a, y) ∉ rest := by
        intro y hy
        exact h.1 (List.mem_map.2 ⟨(a, y), hy, rfl⟩)
      simp [GoMap.find?, hnot]
      exact eq_comm
    · have hka : ¬ k = a := fun h' => hak h'.symm
      simp [GoMap.find?, hak, hka, ih2]

theorem countStatus_add_countErrors_le (results : List Result) (c : Int) :
    countStatus results c + countErrors results ≤ results.length := by
  induction results with
  | nil => simp [countStatus, countErrors]
  | cons r rs ih =>
    simp only [countStatus, countErrors] at ih
    cases hE : r.Error <;>
      by_cases hc : r.StatusCode = c <;>
        simp [countStatus, countErrors, List.countP_cons, hE, hc] <;> omega

theorem countStatus_le (results : List Result) (c : Int) :
    countStatus results c ≤ results.length := by
  have := countStatus_add_countErrors_le results c
  omega

theorem countStatus_pos_iff (results : List Result) (c : Int) :
    countStatus results c ≠ 0 ↔ ∃ r ∈ results, r.Error = none ∧ r.StatusCode = c := by
  simp [countStatus, List.countP_eq_zero]

theorem countStatus_perm {l₁ l₂ : List Result} (h : l₁.Perm l₂) (c : Int) :
    countStatus l₁ c = countStatus l₂ c :=
  h.countP_eq _

theorem countErrors_perm {l₁ l₂ : List Result} (h : l₁.Perm l₂) :
    countErrors l₁ = countErrors l₂ :=
  h.countP_eq _

/-- The counts of all entries and the errors add up to the Results folded. -/
theorem collectAll_total (results : List Result) :
    GoMap.total (collectAll results).StatusCodes + (collectAll results).ErrorCount
      = (collectAll results).TotalRequests := by
  induction results using List.reverseRecOn with
  | nil => simp [collectAll, newReport, GoMap.total]
  | append_singleton rs r ih =>
    rw [collectAll_append]
    cases hE : r.Error with
    | some e =>
      simp only [collect, hE, Option.isSome_some, if_true]
      omega
    | none =>
      by_cases h200 : r.StatusCode = 200
      · have hs := GoMap.total_set (collectAll rs).StatusCodes 200
          (GoMap.get (collectAll rs).StatusCodes 200 + 1)
        simp only [collect, hE, Option.isSome_none, h200, if_true, GoMap.incr]
        simp only [Bool.false_eq_true, if_false]
        omega
      · have hs := GoMap.total_set (collectAll rs).StatusCodes r.StatusCode
          (GoMap.get (collectAll rs).StatusCodes r.StatusCode + 1)
        simp only [collect, hE, Option.isSome_none, h200, if_false, GoMap.incr]
        simp only [Bool.false_eq_true, if_false]
        omega

/-- The count of every entry of the folded map is the count of its status. -/
theorem collectAll_entry (results : List Result) (k v : Int)
    (h : (k, v) ∈ (collectAll results).StatusCodes) :
    v = countStatus results k ∧ countStatus results k ≠ 0 := by
  obtain ⟨_, _, _, _, h4, h5⟩ := collectAll_counts results
  have hf := (GoMap.mem_iff_find? _ h5 k v).1 h
  rw [h4 k] at hf
  by_cases hn : countStatus results k = 0
  · simp [hn] at hf
  · simp [hn] at hf
    exact ⟨hf.symm, hn⟩

/-! ## Lemmas on the list of workers -/

theorem countP_set_add {α : Type} (p : α → Bool) (l : List α) (w : Nat) (a b : α)
    (h : l[w]? = some a) :
    (l.set w b).countP p + (if p a then 1 else 0) = l.countP p + (if p b then 1 else 0) := by
  induction l generalizing w with
  | nil => simp at h
  | cons x xs ih =>
    cases w with
    | zero =>
      simp at h
      subst h
      simp only [List.set_cons_zero, List.countP_cons]
      omega
    | succ n =>
      simp at h
      have := ih n h
      simp only [List.set_cons_succ, List.countP_cons]
      omega

theorem sum_map_set_add {α : Type} (f : α → Nat) (l : List α) (w : Nat) (a b : α)
    (h : l[w]? = some a) :
    ((l.set w b).map f).sum + f a = (l.map f).sum + f b := by
  induction l generalizing w with
  | nil => simp at h
  | cons x xs ih =>
    cases w with
    | zero =>
      simp at h
      subst h
      simp only [List.set_cons_zero, List.map_cons, List.sum_cons]
      omega
    | succ n =>
      simp at h
      have := ih n h
      simp only [List.set_cons_succ, List.map_cons, List.sum_cons]
      omega

theorem mem_of_getElem? {α : Type} (l : List α) (w : Nat) (a : α) (h : l[w]? = some a) :
    a ∈ l := by
  rw [List.getElem?_eq_some_iff] at h
  obtain ⟨hw, rfl⟩ := h
  exact List.getElem_mem hw

theorem mem_set_cases {α : Type} (l : List α) (w : Nat) (b x : α) (h : x ∈ l.set w b) :
    x = b ∨ x ∈ l := by
  rcases List.mem_or_eq_of_mem_set h with h1 | h1
  · exact Or.inr h1
  · exact Or.inl h1

theorem exists_live_of_countP_pos (l : List WorkerPc) (h : l.countP WorkerPc.live ≠ 0) :
    ∃ (w : Nat) (pc : WorkerPc), l[w]? = some pc ∧ WorkerPc.live pc = true := by
  have hpos : 0 < l.countP WorkerPc.live := Nat.pos_of_ne_zero h
  rw [List.countP_pos_iff] at hpos
  obtain ⟨pc, hmem, hlive⟩ := hpos
  obtain ⟨w, hw, hpc⟩ := List.getElem_of_mem hmem
  exact ⟨w, pc, by rw [List.getElem?_eq_some_iff]; exact ⟨hw, hpc⟩, hlive⟩

/-! ## The invariant holds in every reachable state -/

theorem inv_initState (rt : Runtime) (config : Config) : Inv rt config initState := by
  constructor <;> simp [initState, tokensSent, inFlight, newReport]
  exact ⟨[], by simp [collectAll, newReport]⟩

theorem inv_main_start (rt : Runtime) (config : Config) (s t : State) (elapsed : Int)
    (hinv : Inv rt config s) (hp : s.panicked = false) (hpc : s.mainPc = MainPc.start)
    (h : stepMain rt config s elapsed = some t) : Inv rt config t := by
  obtain ⟨mainPc, wg, workers, dispatcher, closer, requestChan, resultChan, report, panicked⟩ := s
  obtain ⟨i1, i2, i3, i4, i5, i6, i7, i8, i9, i10, i11, i12, i13, i14, i15, i16, i17, i18, i19,
    i20, i21⟩ := hinv
  dsimp only at *
  subst hpc hp
  obtain ⟨hw, hq, hr, hrep⟩ := i3 rfl
  have hd : dispatcher = DispatcherPc.notStarted := i7.2 (Or.inl rfl)
  have hc : closer = CloserPc.notStarted := i8.2 (by simp)
  subst hw hrep hd hc
  simp only [stepMain] at h
  split_ifs at h with hneg hbig
  · cases h
    constructor
    any_goals assumption
    · exact fun _ => ⟨Or.inl hneg, rfl⟩
  · cases h
    constructor
    any_goals assumption
    · exact fun _ => ⟨Or.inr hbig, rfl⟩
  · cases h
    constructor
    any_goals assumption
    all_goals simp [tokensSent, inFlight, newReport]
    all_goals omega

theorem inv_main_spawning (rt : Runtime) (config : Config) (s t : State) (elapsed : Int) (i : Int)
    (hinv : Inv rt config s) (hp : s.panicked = false) (hpc : s.mainPc = MainPc.spawning i)
    (h : stepMain rt config s elapsed = some t) : Inv rt config t := by
  obtain ⟨mainPc, wg, workers, dispatcher, closer, requestChan, resultChan, report, panicked⟩ := s
  obtain ⟨i1, i2, i3, i4, i5, i6, i7, i8, i9, i10, i11, i12, i13, i14, i15, i16, i17, i18, i19,
    i20, i21⟩ := hinv
  dsimp only at *
  subst hpc hp
  obtain ⟨hi0, hlen⟩ := i4 i rfl
  have hd : dispatcher = DispatcherPc.notStarted := i7.2 (Or.inr (Or.inl ⟨i, rfl⟩))
  have hc : closer = CloserPc.notStarted := i8.2 (by simp)
  subst hd hc
  simp only [stepMain] at h
  split_ifs at h with hlt
  · cases h
    constructor
    any_goals assumption
    all_goals simp [tokensSent, inFlight, WorkerPc.live, WorkerPc.inFlight] at *
    all_goals (try first | assumption | omega)
  · cases h
    constructor
    any_goals assumption
    all_goals simp [tokensSent, inFlight] at *
    all_goals (try first | assumption | omega)

theorem inv_main_goDispatcher (rt : Runtime) (config : Config) (s t : State) (elapsed : Int)
    (hinv : Inv rt config s) (hp : s.panicked = false) (hpc : s.mainPc = MainPc.goDispatcher)
    (h : stepMain rt config s elapsed = some t) : Inv rt config t := by
  obtain ⟨mainPc, wg, workers, dispatcher, closer, requestChan, resultChan, report, panicked⟩ := s
  obtain ⟨i1, i2, i3, i4, i5, i6, i7, i8, i9, i10, i11, i12, i13, i14, i15, i16, i17, i18, i19,
    i20, i21⟩ := hinv
  dsimp only at *
  subst hpc hp
  have hd : dispatcher = DispatcherPc.notStarted := i7.2 (Or.inr (Or.inr rfl))
  have hc : closer = CloserPc.notStarted := i8.2 (by simp)
  subst hd hc
  simp only [stepMain] at h
  cases h
  constructor
  any_goals assumption
  all_goals simp [tokensSent, inFlight] at *
  all_goals (try first | assumption | omega)

theorem inv_main_goCloser (rt : Runtime) (config : Config) (s t : State) (elapsed : Int)
    (hinv : Inv rt config s) (hp : s.panicked = false) (hpc : s.mainPc = MainPc.goCloser)
    (h : stepMain rt config s elapsed = some t) : Inv rt config t := by
  obtain ⟨mainPc, wg, workers, dispatcher, closer, requestChan, resultChan, report, panicked⟩ := s
  obtain ⟨i1, i2, i3, i4, i5, i6, i7, i8, i9, i10, i11, i12, i13, i14, i15, i16, i17, i18, i19,
    i20, i21⟩ := hinv
  dsimp only at *
  subst hpc hp
  have hc : closer = CloserPc.notStarted := i8.2 (by simp)
  subst hc
  have hrep := i14 rfl
  subst hrep
  simp only [stepMain] at h
  cases h
  constructor
  any_goals assumption
  all_goals simp [tokensSent, inFlight] at *
  all_goals assumption

theorem collect_TotalRequests (report : Report) (r : Result) :
    (collect report r).TotalRequests = report.TotalRequests + 1 := by
  unfold collect
  split_ifs <;> rfl

theorem collect_withTime (report : Report) (r : Result) (t : Int) :
    collect { report with TotalTime := t } r = { collect report r with TotalTime := t } := by
  unfold collect
  split_ifs <;> rfl

theorem folded_collect (report : Report) (r : Result)
    (h : ∃ results t, report = { collectAll results with TotalTime := t }) :
    ∃ results t, collect report r = { collectAll results with TotalTime := t } := by
  obtain ⟨rs, t, rfl⟩ := h
  exact ⟨rs ++ [r], t, by rw [collectAll_append, collect_withTime]⟩

theorem folded_setTime (report : Report) (elapsed : Int)
    (h : ∃ results t, report = { collectAll results with TotalTime := t }) :
    ∃ results t, { report with TotalTime := elapsed } = { collectAll results with TotalTime := t } := by
  obtain ⟨rs, t, rfl⟩ := h
  exact ⟨rs, elapsed, rfl⟩

theorem inv_main_collecting (rt : Runtime) (config : Config) (s t : State) (elapsed : Int)
    (hinv : Inv rt config s) (hp : s.panicked = false) (hpc : s.mainPc = MainPc.collecting)
    (h : stepMain rt config s elapsed = some t) : Inv rt config t := by
  obtain ⟨mainPc, wg, workers, dispatcher, closer, requestChan, resultChan, report, panicked⟩ := s
  obtain ⟨i1, i2, i3, i4, i5, i6, i7, i8, i9, i10, i11, i12, i13, i14, i15, i16, i17, i18, i19,
    i20, i21⟩ := hinv
  obtain ⟨buf, cap, closed⟩ := resultChan
  dsimp only at *
  subst hpc hp
  have hfold1 := fun r => folded_collect report r i15
  have hfold2 := folded_setTime report elapsed i15
  cases buf with
  | nil =>
    simp only [stepMain, Chan.recv] at h
    split_ifs at h with hcl
    cases h
    constructor
    any_goals assumption
    all_goals simp [tokensSent, inFlight] at *
    all_goals (try first | assumption | omega)
    · intro hx
      exact absurd hx i8
  | cons r rest =>
    simp only [stepMain, Chan.recv] at h
    cases h
    have hT := collect_TotalRequests report r
    have hf := hfold1 r
    constructor
    any_goals assumption
    all_goals simp [tokensSent, inFlight] at *
    all_goals (try first | assumption | omega)
    · intro hx
      exact absurd hx i8
    · intro x hx
      rcases hx with h1 | h1
      · exact i20 x (Or.inl h1)
      · exact i20 x (Or.inr (Or.inr h1))

theorem inv_stepDispatcher (rt : Runtime) (config : Config) (s t : State)
    (hinv : Inv rt config s) (hp : s.panicked = false)
    (h : stepDispatcher config s = some t) : Inv rt config t := by
  obtain ⟨mainPc, wg, workers, dispatcher, closer, requestChan, resultChan, report, panicked⟩ := s
  obtain ⟨i1, i2, i3, i4, i5, i6, i7, i8, i9, i10, i11, i12, i13, i14, i15, i16, i17, i18, i19,
    i20, i21⟩ := hinv
  obtain ⟨buf, cap, closed⟩ := requestChan
  dsimp only at *
  subst hp
  cases dispatcher with
  | notStarted => simp [stepDispatcher] at h
  | finished i => simp [stepDispatcher] at h
  | looping i =>
    have hcl : closed = false := by
      cases closed with
      | false => rfl
      | true => simp at i12
    subst hcl
    have hm : mainPc ≠ MainPc.start := fun hx => by
      have := i7.2 (Or.inl hx)
      cases this
    obtain ⟨hi0, hiR⟩ := i10 i rfl
    obtain ⟨hR, hcapR, _⟩ := i2 hm
    by_cases hlt : i < config.Requests
    · by_cases hcap : (buf.length : Int) < cap
      · simp [stepDispatcher, Chan.send, hlt, hcap] at h
        subst h
        constructor
        any_goals assumption
        all_goals simp [tokensSent, inFlight] at *
        all_goals (try first | assumption | omega)
      · simp [stepDispatcher, Chan.send, hlt, hcap] at h
    · simp [stepDispatcher, Chan.close, hlt] at h
      subst h
      constructor
      any_goals assumption
      all_goals simp [tokensSent, inFlight] at *
      all_goals (try first | assumption | omega)
      · intro hx
        exact absurd hx i16

theorem inv_stepCloser (rt : Runtime) (config : Config) (s t : State)
    (hinv : Inv rt config s) (hp : s.panicked = false)
    (h : stepCloser s = some t) : Inv rt config t := by
  obtain ⟨mainPc, wg, workers, dispatcher, closer, requestChan, resultChan, report, panicked⟩ := s
  obtain ⟨i1, i2, i3, i4, i5, i6, i7, i8, i9, i10, i11, i12, i13, i14, i15, i16, i17, i18, i19,
    i20, i21⟩ := hinv
  obtain ⟨buf, cap, closed⟩ := resultChan
  dsimp only at *
  subst hp
  cases closer with
  | notStarted => simp [stepCloser] at h
  | finished => simp [stepCloser] at h
  | waiting =>
    have hcl : closed = false := by
      cases closed with
      | false => rfl
      | true => simp at i17
    subst hcl
    by_cases hwg : wg = 0
    · simp [stepCloser, Chan.close, hwg] at h
      subst h
      constructor
      any_goals assumption
      all_goals simp [tokensSent, inFlight] at *
      all_goals (try first | assumption | omega)
      · intro hx
        exact absurd hx i19
    · simp [stepCloser, hwg] at h

theorem buildResult_error_status (out : GetOutcome) (duration : Int)
    (h : (buildResult out duration).Error ≠ none) : (buildResult out duration).StatusCode = 0 := by
  cases out with
  | response status => simp [buildResult, GetOutcome.err] at h
  | failure resp e => rfl

theorem countP_pos_of_getElem? {α : Type} (p : α → Bool) (l : List α) (w : Nat) (a : α)
    (h : l[w]? = some a) (hp : p a = true) : 0 < l.countP p :=
  List.countP_pos_iff.2 ⟨a, mem_of_getElem? l w a h, hp⟩

theorem inv_stepWorker (rt : Runtime) (config : Config) (s t : State) (w : Nat) (out : GetOutcome)
    (duration : Int) (hinv : Inv rt config s) (hp : s.panicked = false)
    (h : stepWorker s w out duration = some t) : Inv rt config t := by
  obtain ⟨mainPc, wg, workers, dispatcher, closer, requestChan, resultChan, report, panicked⟩ := s
  obtain ⟨i1, i2, i3, i4, i5, i6, i7, i8, i9, i10, i11, i12, i13, i14, i15, i16, i17, i18, i19,
    i20, i21⟩ := hinv
  dsimp only at *
  subst hp
  cases hw : workers[w]? with
  | none => simp [stepWorker, hw] at h
  | some pc =>
    have hmem : pc ∈ workers := mem_of_getElem? workers w pc hw
    have hm : mainPc ≠ MainPc.start := fun hx => by
      have := (i3 hx).1
      rw [this] at hmem
      cases hmem
    obtain ⟨hR, hcapQ, hcapR⟩ := i2 hm
    cases pc with
    | exited => simp [stepWorker, hw] at h
    | calling =>
      simp [stepWorker, hw] at h
      subst h
      have hlive := countP_set_add WorkerPc.live workers w _
        (WorkerPc.sending (buildResult out duration)) hw
      have hfl := countP_set_add WorkerPc.inFlight workers w _
        (WorkerPc.sending (buildResult out duration)) hw
      constructor
      any_goals assumption
      all_goals simp [tokensSent, inFlight, WorkerPc.live, WorkerPc.inFlight] at *
      all_goals (try first | assumption | omega)
      · intro hx
        rcases mem_set_cases _ _ _ _ hx with h1 | h1
        · cases h1
        · exact i16 h1
      · intro r hx hE
        rcases hx with hx | hx
        · rcases mem_set_cases _ _ _ _ hx with h1 | h1
          · cases h1
            exact buildResult_error_status out duration hE
          · exact i20 r (Or.inl h1) hE
        · exact i20 r (Or.inr hx) hE
    | waiting =>
      obtain ⟨buf, cap, closed⟩ := requestChan
      dsimp only at *
      cases buf with
      | cons tok rest =>
        simp [stepWorker, hw, Chan.recv] at h
        subst h
        have hlive := countP_set_add WorkerPc.live workers w _ WorkerPc.calling hw
        have hfl := countP_set_add WorkerPc.inFlight workers w _ WorkerPc.calling hw
        constructor
        any_goals assumption
        all_goals simp [tokensSent, inFlight, WorkerPc.live, WorkerPc.inFlight] at *
        all_goals (try first | assumption | omega)
        · intro hx
          exact absurd hx hm
        · intro hx
          rcases mem_set_cases _ _ _ _ hx with h1 | h1
          · cases h1
          · exact absurd h1 i16
        · intro x hx hE
          rcases hx with hx | hx
          · rcases mem_set_cases _ _ _ _ hx with h1 | h1
            · cases h1
            · exact i20 x (Or.inl h1) hE
          · exact i20 x (Or.inr hx) hE
      | nil =>
        cases closed with
        | false => simp [stepWorker, hw, Chan.recv] at h
        | true =>
          have hlive := countP_set_add WorkerPc.live workers w _ WorkerPc.exited hw
          have hfl := countP_set_add WorkerPc.inFlight workers w _ WorkerPc.exited hw
          have hwg : ¬ (wg - 1 < 0) := by
            simp [WorkerPc.live] at hlive
            omega
          simp [stepWorker, hw, Chan.recv, hwg] at h
          subst h
          constructor
          any_goals assumption
          all_goals simp [tokensSent, inFlight, WorkerPc.live, WorkerPc.inFlight] at *
          all_goals (try first | assumption | omega)
          · intro hx
            have := i18 hx
            omega
          · intro x hx hE
            rcases hx with hx | hx
            · rcases mem_set_cases _ _ _ _ hx with h1 | h1
              · cases h1
              · exact i20 x (Or.inl h1) hE
            · exact i20 x (Or.inr hx) hE
    | sending r =>
      obtain ⟨buf, cap, closed⟩ := resultChan
      dsimp only at *
      have hlive := countP_set_add WorkerPc.live workers w _ WorkerPc.waiting hw
      have hfl := countP_set_add WorkerPc.inFlight workers w _ WorkerPc.waiting hw
      have hcl : closed = false := by
        cases closed with
        | false => rfl
        | true =>
          have h0 := i18 (i17.1 rfl)
          have h1 := countP_pos_of_getElem? WorkerPc.live workers w _ hw rfl
          omega
      subst hcl
      by_cases hcap : (buf.length : Int) < cap
      · simp [stepWorker, hw, Chan.send, hcap] at h
        subst h
        constructor
        any_goals assumption
        all_goals simp [tokensSent, inFlight, WorkerPc.live, WorkerPc.inFlight] at *
        all_goals (try first | assumption | omega)
        · intro hx
          rcases mem_set_cases _ _ _ _ hx with h1 | h1
          · cases h1
          · exact i16 h1
        · intro x hx hE
          rcases hx with hx | hx | hx
          · rcases mem_set_cases _ _ _ _ hx with h1 | h1
            · cases h1
            · exact i20 x (Or.inl h1) hE
          · exact i20 x (Or.inr hx) hE
          · subst hx
            exact i20 x (Or.inl hmem) hE
      · simp [stepWorker, hw, Chan.send, hcap] at h

/-! ## Runs: reachable states, termination, absence of deadlock -/

theorem inv_stepMain (rt : Runtime) (config : Config) (s t : State) (elapsed : Int)
    (hinv : Inv rt config s) (hp : s.panicked = false)
    (h : stepMain rt config s elapsed = some t) : Inv rt config t := by
  cases hpc : s.mainPc with
  | start => exact inv_main_start rt config s t elapsed hinv hp hpc h
  | spawning i => exact inv_main_spawning rt config s t elapsed i hinv hp hpc h
  | goDispatcher => exact inv_main_goDispatcher rt config s t elapsed hinv hp hpc h
  | goCloser => exact inv_main_goCloser rt config s t elapsed hinv hp hpc h
  | collecting => exact inv_main_collecting rt config s t elapsed hinv hp hpc h
  | returned => simp [stepMain, hpc] at h

theorem inv_step (rt : Runtime) (config : Config) (s t : State) (a : Action)
    (hinv : Inv rt config s) (h : step rt config s a = some t) : Inv rt config t := by
  unfold step at h
  cases hp : s.panicked with
  | true => simp [hp] at h
  | false =>
    simp only [hp, Bool.false_eq_true, if_false] at h
    cases a with
    | main elapsed => exact inv_stepMain rt config s t elapsed hinv hp h
    | dispatcher => exact inv_stepDispatcher rt config s t hinv hp h
    | closer => exact inv_stepCloser rt config s t hinv hp h
    | worker w out duration => exact inv_stepWorker rt config s t w out duration hinv hp h

theorem inv_run (rt : Runtime) (config : Config) (schedule : List Action) (s t : State)
    (hinv : Inv rt config s) (h : run rt config s schedule = some t) : Inv rt config t := by
  induction schedule generalizing s with
  | nil =>
    simp only [run, Option.some.injEq] at h
    subst h
    exact hinv
  | cons a rest ih =>
    simp only [run] at h
    cases hs : step rt config s a with
    | none => simp [hs] at h
    | some u =>
      rw [hs] at h
      exact ih u (inv_step rt config s u a hinv hs) h

theorem inv_of_reachable (rt : Runtime) (config : Config) (s : State) (h : Reachable rt config s) :
    Inv rt config s := by
  obtain ⟨schedule, hrun⟩ := h
  exact inv_run rt config schedule initState s (inv_initState rt config) hrun

theorem run_append (rt : Runtime) (config : Config) (l₁ l₂ : List Action) (s : State) :
    run rt config s (l₁ ++ l₂) = (run rt config s l₁).bind (fun u => run rt config u l₂) := by
  induction l₁ generalizing s with
  | nil => simp [run]
  | cons a rest ih =>
    simp only [List.cons_append, run]
    cases step rt config s a with
    | none => simp
    | some v => simpa using ih v

theorem reachable_step (rt : Runtime) (config : Config) (s t : State) (a : Action)
    (hs : Reachable rt config s) (h : step rt config s a = some t) : Reachable rt config t := by
  obtain ⟨schedule, hrun⟩ := hs
  refine ⟨schedule ++ [a], ?_⟩
  rw [run_append, hrun]
  simp [run, h]

/-- Every step strictly lowers the bound on the steps left: no run is infinite. -/
theorem stepsLeft_decreases (rt : Runtime) (config : Config) (s t : State) (a : Action)
    (h : step rt config s a = some t) : stepsLeft config t < stepsLeft config s := by
  obtain ⟨mainPc, wg, workers, dispatcher, closer, requestChan, resultChan, report, panicked⟩ := s
  obtain ⟨qbuf, qcap, qclosed⟩ := requestChan
  obtain ⟨rbuf, rcap, rclosed⟩ := resultChan
  cases panicked with
  | true => simp [step] at h
  | false =>
    simp only [step, Bool.false_eq_true, if_false] at h
    cases a with
    | main elapsed =>
      cases mainPc with
      | start =>
        simp only [stepMain] at h
        split_ifs at h <;> cases h <;> simp [stepsLeft, MainPc.weight] <;> omega
      | spawning i =>
        simp only [stepMain] at h
        split_ifs at h <;> cases h <;>
          simp [stepsLeft, MainPc.weight, WorkerPc.weight] <;> omega
      | goDispatcher =>
        simp only [stepMain] at h
        cases h
        simp [stepsLeft, MainPc.weight, DispatcherPc.weight]
        omega
      | goCloser =>
        simp only [stepMain] at h
        cases h
        simp [stepsLeft, MainPc.weight, CloserPc.weight]
        omega
      | collecting =>
        cases rbuf with
        | nil =>
          simp only [stepMain, Chan.recv] at h
          split_ifs at h
          cases h
          simp [stepsLeft, MainPc.weight]
        | cons r rest =>
          simp only [stepMain, Chan.recv] at h
          cases h
          simp [stepsLeft, MainPc.weight]
      | returned => simp [stepMain] at h
    | dispatcher =>
      cases dispatcher with
      | notStarted => simp [stepDispatcher] at h
      | finished i => simp [stepDispatcher] at h
      | looping i =>
        simp only [stepDispatcher, Chan.send, Chan.close] at h
        split_ifs at h <;> cases h <;>
          simp [stepsLeft, DispatcherPc.weight] <;> omega
    | closer =>
      cases closer with
      | notStarted => simp [stepCloser] at h
      | finished => simp [stepCloser] at h
      | waiting =>
        simp only [stepCloser, Chan.close] at h
        split_ifs at h <;> cases h <;> simp [stepsLeft, CloserPc.weight]
    | worker w out duration =>
      cases hw : workers[w]? with
      | none => simp [stepWorker, hw] at h
      | some pc =>
        cases pc with
        | exited => simp [stepWorker, hw] at h
        | calling =>
          simp [stepWorker, hw] at h
          subst h
          have hsum := sum_map_set_add WorkerPc.weight workers w _
            (WorkerPc.sending (buildResult out duration)) hw
          simp [stepsLeft, WorkerPc.weight] at hsum ⊢
          omega
        | waiting =>
          have hsum1 := sum_map_set_add WorkerPc.weight workers w _ WorkerPc.calling hw
          have hsum2 := sum_map_set_add WorkerPc.weight workers w _ WorkerPc.exited hw
          cases qbuf with
          | cons tok rest =>
            simp [stepWorker, hw, Chan.recv] at h
            subst h
            simp [stepsLeft, WorkerPc.weight] at hsum1 ⊢
            omega
          | nil =>
            simp only [stepWorker, hw, Chan.recv] at h
            split_ifs at h <;> cases h <;>
              simp [stepsLeft, WorkerPc.weight] at hsum2 ⊢ <;> omega
        | sending r =>
          have hsum := sum_map_set_add WorkerPc.weight workers w _ WorkerPc.waiting hw
          simp only [stepWorker, hw, Chan.send] at h
          split_ifs at h <;> cases h <;>
            simp [stepsLeft, WorkerPc.weight] at hsum ⊢ <;> omega

theorem not_panicked (rt : Runtime) (config : Config) (s : State) (hinv : Inv rt config s)
    (hR : 0 ≤ config.Requests) (hL : config.Requests ≤ (rt.maxChanCap : Int)) :
    s.panicked = false := by
  cases hp : s.panicked with
  | false => rfl
  | true =>
    have := (hinv.panic hp).1
    omega

/-- Once the channels are made the run cannot panic. -/
theorem not_panicked_of_started (rt : Runtime) (config : Config) (s : State)
    (hinv : Inv rt config s) (hm : s.mainPc ≠ MainPc.start) : s.panicked = false := by
  cases hp : s.panicked with
  | false => rfl
  | true => exact absurd (hinv.panic hp).2 hm

theorem total_nonneg (rt : Runtime) (config : Config) (s : State) (hinv : Inv rt config s) :
    0 ≤ s.report.TotalRequests := by
  obtain ⟨rs, t, hrep⟩ := hinv.folded
  rw [hrep]
  have := (collectAll_counts rs).2.1
  show 0 ≤ (collectAll rs).TotalRequests
  omega

theorem tokensSent_bounds (rt : Runtime) (config : Config) (s : State) (hinv : Inv rt config s)
    (hR : 0 ≤ config.Requests) : 0 ≤ tokensSent s ∧ tokensSent s ≤ config.Requests := by
  unfold tokensSent
  cases hd : s.dispatcher with
  | notStarted => exact ⟨le_refl _, hR⟩
  | looping i => exact hinv.loop i hd
  | finished i =>
    have := hinv.fin i hd
    simp only
    omega

theorem mainPc_ne_start_of_worker (rt : Runtime) (config : Config) (s : State) (hinv : Inv rt config s)
    (w : Nat) (pc : WorkerPc) (hw : s.workers[w]? = some pc) : s.mainPc ≠ MainPc.start := by
  intro hx
  have hmem := mem_of_getElem? s.workers w pc hw
  rw [(hinv.atStart hx).1] at hmem
  cases hmem

/-- The send of the dispatcher finds a free slot in `requestChan`. -/
theorem dispatcher_send_succeeds (rt : Runtime) (config : Config) (s : State) (hinv : Inv rt config s) (i : Int)
    (hd : s.dispatcher = DispatcherPc.looping i) (hlt : i < config.Requests) :
    s.requestChan.send i
      = SendOutcome.sent { s.requestChan with buf := s.requestChan.buf ++ [i] } := by
  have hm : s.mainPc ≠ MainPc.start := fun hx => by
    have := hinv.dispNot.2 (Or.inl hx)
    rw [hd] at this
    cases this
  obtain ⟨hR, hcap, _⟩ := hinv.started hm
  have hcl : s.requestChan.closed = false := by
    cases hc : s.requestChan.closed with
    | false => rfl
    | true =>
      obtain ⟨j, hj⟩ := hinv.reqClosed.1 hc
      rw [hd] at hj
      cases hj
  have hcons := hinv.conserve
  have htot := total_nonneg rt config s hinv
  simp only [tokensSent, hd] at hcons
  have hlen : (s.requestChan.buf.length : Int) < s.requestChan.cap := by omega
  simp [Chan.send, hcl, hlen]

/-- The send of a worker finds a free slot in `resultChan`. -/
theorem worker_send_succeeds (rt : Runtime) (config : Config) (s : State) (hinv : Inv rt config s) (w : Nat)
    (r : Result) (hw : s.workers[w]? = some (WorkerPc.sending r)) :
    s.resultChan.send r
      = SendOutcome.sent { s.resultChan with buf := s.resultChan.buf ++ [r] } := by
  have hm := mainPc_ne_start_of_worker rt config s hinv w _ hw
  obtain ⟨hR, _, hcap⟩ := hinv.started hm
  have hlive := countP_pos_of_getElem? WorkerPc.live s.workers w _ hw rfl
  have hfl := countP_pos_of_getElem? WorkerPc.inFlight s.workers w _ hw rfl
  have hcl : s.resultChan.closed = false := by
    cases hc : s.resultChan.closed with
    | false => rfl
    | true =>
      have h0 := hinv.closerFin (hinv.resClosed.1 hc)
      have h1 := hinv.wgLive
      omega
  have hcons := hinv.conserve
  have htot := total_nonneg rt config s hinv
  have hsent := (tokensSent_bounds rt config s hinv hR).2
  unfold inFlight at hcons
  have hlen : (s.resultChan.buf.length : Int) < s.resultChan.cap := by omega
  simp [Chan.send, hcl, hlen]

/-- No deadlock: as long as `runLoadTest` has not returned, some goroutine can
take a step. -/
theorem pipeline_progress (rt : Runtime) (config : Config) (s : State) (hinv : Inv rt config s)
    (hp : s.panicked = false) (hret : s.mainPc ≠ MainPc.returned) :
    ∃ a t, step rt config s a = some t := by
  cases hpc : s.mainPc with
  | returned => exact absurd hpc hret
  | start =>
    by_cases hneg : config.Requests < 0
    · exact ⟨Action.main 0, _, by simp [step, hp, stepMain, hpc, hneg]; rfl⟩
    · by_cases hbig : (rt.maxChanCap : Int) < config.Requests
      · exact ⟨Action.main 0, _, by simp [step, hp, stepMain, hpc, hneg, hbig]; rfl⟩
      · exact ⟨Action.main 0, _, by simp [step, hp, stepMain, hpc, hneg, hbig]; rfl⟩
  | spawning i =>
    by_cases hlt : i < config.Concurrency
    · exact ⟨Action.main 0, _, by simp [step, hp, stepMain, hpc, hlt]; rfl⟩
    · exact ⟨Action.main 0, _, by simp [step, hp, stepMain, hpc, hlt]; rfl⟩
  | goDispatcher => exact ⟨Action.main 0, _, by simp [step, hp, stepMain, hpc]; rfl⟩
  | goCloser => exact ⟨Action.main 0, _, by simp [step, hp, stepMain, hpc]; rfl⟩
  | collecting =>
    cases hbuf : s.resultChan.buf with
    | cons r rest =>
      exact ⟨Action.main 0, _, by simp [step, hp, stepMain, hpc, Chan.recv, hbuf]; rfl⟩
    | nil =>
      cases hcl : s.resultChan.closed with
      | true =>
        exact ⟨Action.main 0, _, by simp [step, hp, stepMain, hpc, Chan.recv, hbuf, hcl]; rfl⟩
      | false =>
        have hc : s.closer = CloserPc.waiting := by
          cases hcz : s.closer with
          | waiting => rfl
          | notStarted =>
            have := (hinv.closerNot.1 hcz).1
            exact absurd hpc this
          | finished =>
            have := hinv.resClosed.2 hcz
            rw [hcl] at this
            cases this
        by_cases hwg : s.wg = 0
        · exact ⟨Action.closer, _, by simp [step, hp, stepCloser, hc, hwg, Chan.close, hcl]; rfl⟩
        · have hlive : s.workers.countP WorkerPc.live ≠ 0 := by
            have := hinv.wgLive
            omega
          obtain ⟨w, pc, hw, hpcl⟩ := exists_live_of_countP_pos s.workers hlive
          cases pc with
          | exited => cases hpcl
          | calling =>
            exact ⟨Action.worker w (GetOutcome.response 200) 0, _,
              by simp [step, hp, stepWorker, hw]; rfl⟩
          | sending r =>
            have hsend := worker_send_succeeds rt config s hinv w r hw
            exact ⟨Action.worker w (GetOutcome.response 200) 0, _,
              by simp [step, hp, stepWorker, hw, hsend]; rfl⟩
          | waiting =>
            cases hq : s.requestChan.buf with
            | cons tok rest =>
              exact ⟨Action.worker w (GetOutcome.response 200) 0, _,
                by simp [step, hp, stepWorker, hw, Chan.recv, hq]; rfl⟩
            | nil =>
              cases hqc : s.requestChan.closed with
              | true =>
                have h1 := countP_pos_of_getElem? WorkerPc.live s.workers w _ hw rfl
                have h2 := hinv.wgLive
                have hnn : ¬ (s.wg - 1 < 0) := by omega
                exact ⟨Action.worker w (GetOutcome.response 200) 0, _,
                  by simp [step, hp, stepWorker, hw, Chan.recv, hq, hqc, hnn]; rfl⟩
              | false =>
                cases hd : s.dispatcher with
                | notStarted =>
                  have := hinv.dispNot.1 hd
                  rw [hpc] at this
                  simp at this
                | finished i =>
                  have := hinv.reqClosed.2 ⟨i, hd⟩
                  rw [hqc] at this
                  cases this
                | looping i =>
                  by_cases hlt : i < config.Requests
                  · have hsend := dispatcher_send_succeeds rt config s hinv i hd hlt
                    exact ⟨Action.dispatcher, _,
                      by simp [step, hp, stepDispatcher, hd, hlt, hsend]; rfl⟩
                  · exact ⟨Action.dispatcher, _,
                      by simp [step, hp, stepDispatcher, hd, hlt, Chan.close, hqc]; rfl⟩

/-- With no request to send, nothing is ever collected. -/
theorem report_empty_of_no_requests (rt : Runtime) (config : Config) (s : State) (hinv : Inv rt config s)
    (hR : config.Requests = 0) :
    tokensSent s = 0 ∧ s.requestChan.buf = [] ∧ s.report.TotalRequests = 0 ∧
      s.report.StatusCodes = [] := by
  have hb := tokensSent_bounds rt config s hinv (by omega)
  have hcons := hinv.conserve
  have htot := total_nonneg rt config s hinv
  have hsent : tokensSent s = 0 := by omega
  have hq : s.requestChan.buf.length = 0 := by omega
  have hT : s.report.TotalRequests = 0 := by omega
  obtain ⟨rs, t, hrep⟩ := hinv.folded
  have hlen : rs.length = 0 := by
    have h1 := (collectAll_counts rs).2.1
    rw [hrep] at hT
    have h2 : (collectAll rs).TotalRequests = 0 := hT
    omega
  have hrs : rs = [] := List.length_eq_zero.1 hlen
  subst hrs
  refine ⟨hsent, List.length_eq_zero.1 hq, hT, ?_⟩
  rw [hrep]
  rfl

/-- What holds when `runLoadTest` has returned with at least one worker. -/
theorem returned_all_collected (rt : Runtime) (config : Config) (s : State) (hinv : Inv rt config s)
    (hC : 0 < config.Concurrency) (hret : s.mainPc = MainPc.returned) :
    tokensSent s = config.Requests ∧ s.requestChan.buf = [] ∧ inFlight s = 0 ∧
      s.resultChan.buf = [] ∧ s.report.TotalRequests = config.Requests := by
  obtain ⟨hcl, hbuf⟩ := hinv.ret hret
  have hwg := hinv.closerFin (hinv.resClosed.1 hcl)
  have hlive := hinv.wgLive
  have hzero : s.workers.countP WorkerPc.live = 0 := by omega
  have hlen := hinv.spawned (Or.inr (Or.inr (Or.inr hret)))
  have hall : ∀ pc ∈ s.workers, pc = WorkerPc.exited := by
    intro pc hpc
    have := List.countP_eq_zero.1 hzero pc hpc
    cases pc <;> simp [WorkerPc.live] at this ⊢
  have hfl : inFlight s = 0 := by
    unfold inFlight
    rw [List.countP_eq_zero]
    intro pc hpc
    rw [hall pc hpc]
    simp [WorkerPc.inFlight]
  have hne : s.workers ≠ [] := by
    intro hnil
    rw [hnil] at hlen
    simp at hlen
    omega
  obtain ⟨pc, hpc⟩ := List.exists_mem_of_ne_nil s.workers hne
  have hex : WorkerPc.exited ∈ s.workers := by
    have := hall pc hpc
    rw [this] at hpc
    exact hpc
  obtain ⟨hqcl, hqbuf⟩ := hinv.exitedW hex
  obtain ⟨i, hd⟩ := hinv.reqClosed.1 hqcl
  have hi := hinv.fin i hd
  have hsent : tokensSent s = config.Requests := by
    simp [tokensSent, hd, hi]
  have hcons := hinv.conserve
  rw [hsent, hqbuf, hfl, hbuf] at hcons
  simp at hcons
  exact ⟨hsent, hqbuf, hfl, hbuf, hcons.symm⟩

/-- When the runtime cannot allocate the channels, the run never leaves the
entry of `runLoadTest`: nothing is started and no token is sent. -/
theorem stays_at_start_of_no_alloc (rt : Runtime) (config : Config) (s : State)
    (hinv : Inv rt config s) (hbig : (rt.maxChanCap : Int) < config.Requests) :
    s.mainPc = MainPc.start ∧ s.dispatcher = DispatcherPc.notStarted ∧ tokensSent s = 0 ∧
      s.requestChan.closed = false ∧ s.workers = [] := by
  have hstart : s.mainPc = MainPc.start := by
    by_contra hne
    have := hinv.alloc hne
    omega
  have hd : s.dispatcher = DispatcherPc.notStarted := hinv.dispNot.2 (Or.inl hstart)
  have hcl : s.requestChan.closed = false := by
    cases hc : s.requestChan.closed with
    | false => rfl
    | true =>
      obtain ⟨i, hi⟩ := hinv.reqClosed.1 hc
      rw [hd] at hi
      cases hi
  exact ⟨hstart, hd, by simp [tokensSent, hd], hcl, (hinv.atStart hstart).1⟩

/-! ## Claims on the collecting loop and on validation -/

/-- C2: for every finite sequence of Results folded by the collecting loop from
the empty Report, ErrorCount is the number of Results whose Error is present;
for every code `c`, `StatusCodes[c]` (0 when `c` is not a key) is the number of
Results with Error absent and StatusCode `c`, and `c` is a key exactly when such
a Result exists (keys being unique).  When every Result carries an error the
map is empty, ErrorCount is the length and SuccessCount is 0 (Scenario 3, four
errors); the sequence 200, 200, 500 without errors gives the map
`[(200, 2), (500, 1)]` (Scenario 5). -/
theorem C2_collect_counts_errors_and_statuses (results : List Result) :
    (collectAll results).ErrorCount = countErrors results ∧
    (∀ c : Int, GoMap.get (collectAll results).StatusCodes c = countStatus results c) ∧
    (∀ c : Int, c ∈ GoMap.keys (collectAll results).StatusCodes ↔
        ∃ r ∈ results, r.Error = none ∧ r.StatusCode = c) ∧
    (GoMap.keys (collectAll results).StatusCodes).Nodup ∧
    ((∀ r ∈ results, r.Error ≠ none) →
        (collectAll results).StatusCodes = [] ∧
        (collectAll results).ErrorCount = results.length ∧
        (collectAll results).SuccessCount = 0) ∧
    (∀ (s₁ s₂ s₃ s₄ d₁ d₂ d₃ d₄ : Int) (e₁ e₂ e₃ e₄ : String),
        collectAll [⟨s₁, d₁, some e₁⟩, ⟨s₂, d₂, some e₂⟩, ⟨s₃, d₃, some e₃⟩, ⟨s₄, d₄, some e₄⟩]
          = { TotalTime := 0, TotalRequests := 4, StatusCodes := [], SuccessCount := 0,
              ErrorCount := 4 }) ∧
    (∀ d₁ d₂ d₃ : Int,
        collectAll [⟨200, d₁, none⟩, ⟨200, d₂, none⟩, ⟨500, d₃, none⟩]
          = { TotalTime := 0, TotalRequests := 3, StatusCodes := [(200, 2), (500, 1)],
              SuccessCount := 2, ErrorCount := 0 }) := by
  obtain ⟨_, h1, h2, h3, h4, h5⟩ := collectAll_counts results
  have hkeys : ∀ c : Int, c ∈ GoMap.keys (collectAll results).StatusCodes ↔
      ∃ r ∈ results, r.Error = none ∧ r.StatusCode = c := by
    intro c
    rw [GoMap.mem_keys_iff, h4 c, ← countStatus_pos_iff]
    by_cases hn : countStatus results c = 0 <;> simp [hn]
  refine ⟨h2, fun c => find?_of_count _ _ c (h4 c), hkeys, h5, ?_, ?_, ?_⟩
  · intro hall
    have hnokey : ∀ c : Int, c ∉ GoMap.keys (collectAll results).StatusCodes := by
      intro c hc
      obtain ⟨r, hr, hnone, _⟩ := (hkeys c).1 hc
      exact hall r hr hnone
    have hempty : (collectAll results).StatusCodes = [] := by
      cases hm : (collectAll results).StatusCodes with
      | nil => rfl
      | cons e rest =>
        exfalso
        apply hnokey e.1
        rw [hm]
        simp [GoMap.keys]
    have hzero : countStatus results 200 = 0 := by
      by_contra hne
      obtain ⟨r, hr, hnone, _⟩ := (countStatus_pos_iff results 200).1 hne
      exact hall r hr hnone
    have herr : countErrors results = results.length := by
      unfold countErrors
      rw [List.countP_eq_length]
      intro r hr
      have := hall r hr
      cases hE : r.Error with
      | none => exact absurd hE this
      | some e => rfl
    refine ⟨hempty, ?_, ?_⟩
    · rw [h2, herr]
    · rw [h3, hzero]
      rfl
  · intro s₁ s₂ s₃ s₄ d₁ d₂ d₃ d₄ e₁ e₂ e₃ e₄
    simp [collectAll, collect, newReport]
  · intro d₁ d₂ d₃
    simp [collectAll, collect, newReport, GoMap.incr, GoMap.set, GoMap.get, GoMap.find?]

/-- C2 at the four failed requests of Scenario 3. -/
theorem C2_collect_counts_errors_and_statuses_witness :
    (collectAll [⟨0, 7, some "connection refused"⟩, ⟨0, 5, some "connection refused"⟩,
        ⟨0, 9, some "connection refused"⟩, ⟨0, 4, some "connection refused"⟩]).StatusCodes = [] ∧
    (collectAll [⟨0, 7, some "connection refused"⟩, ⟨0, 5, some "connection refused"⟩,
        ⟨0, 9, some "connection refused"⟩, ⟨0, 4, some "connection refused"⟩]).ErrorCount
      = ([⟨0, 7, some "connection refused"⟩, ⟨0, 5, some "connection refused"⟩,
        ⟨0, 9, some "connection refused"⟩, ⟨0, 4, some "connection refused"⟩] : List Result).length ∧
    (collectAll [⟨0, 7, some "connection refused"⟩, ⟨0, 5, some "connection refused"⟩,
        ⟨0, 9, some "connection refused"⟩, ⟨0, 4, some "connection refused"⟩]).SuccessCount = 0 :=
  (C2_collect_counts_errors_and_statuses _).2.2.2.2.1 (by simp)

/-- C3: for every finite sequence of Results folded by the collecting loop from
the empty Report, SuccessCount + ErrorCount + (sum of `StatusCodes[c]` over the
keys `c` other than 200) = TotalRequests. -/
theorem C3_success_error_other_sum (results : List Result) :
    (collectAll results).SuccessCount + (collectAll results).ErrorCount
        + GoMap.totalExcept (collectAll results).StatusCodes 200
      = (collectAll results).TotalRequests := by
  obtain ⟨_, _, _, h3, h4, h5⟩ := collectAll_counts results
  have htot := collectAll_total results
  have hsplit := GoMap.total_eq_totalExcept (collectAll results).StatusCodes 200 h5
  have hget := find?_of_count _ _ 200 (h4 200)
  omega

/-- C4: aggregation does not depend on the order of arrival: two sequences of
Results that are permutations of each other fold to the same TotalRequests,
ErrorCount, SuccessCount and TotalTime and to the same StatusCodes map: every
key has the same entry in both (so the same keys, with the same counts), and
the two lists of entries are permutations of each other. -/
theorem C4_collect_order_independent (l₁ l₂ : List Result) (h : l₁.Perm l₂) :
    (collectAll l₁).TotalRequests = (collectAll l₂).TotalRequests ∧
    (collectAll l₁).ErrorCount = (collectAll l₂).ErrorCount ∧
    (collectAll l₁).SuccessCount = (collectAll l₂).SuccessCount ∧
    (collectAll l₁).TotalTime = (collectAll l₂).TotalTime ∧
    (∀ c : Int, GoMap.find? (collectAll l₁).StatusCodes c
        = GoMap.find? (collectAll l₂).StatusCodes c) ∧
    (∀ c : Int, c ∈ GoMap.keys (collectAll l₁).StatusCodes
        ↔ c ∈ GoMap.keys (collectAll l₂).StatusCodes) ∧
    (∀ c : Int, GoMap.get (collectAll l₁).StatusCodes c
        = GoMap.get (collectAll l₂).StatusCodes c) ∧
    (collectAll l₁).StatusCodes.Perm (collectAll l₂).StatusCodes := by
  obtain ⟨a0, a1, a2, a3, a4, a5⟩ := collectAll_counts l₁
  obtain ⟨b0, b1, b2, b3, b4, b5⟩ := collectAll_counts l₂
  have hfind : ∀ c : Int, GoMap.find? (collectAll l₁).StatusCodes c
      = GoMap.find? (collectAll l₂).StatusCodes c := by
    intro c
    rw [a4 c, b4 c, countStatus_perm h c]
  refine ⟨?_, ?_, ?_, ?_, hfind, ?_, ?_, ?_⟩
  · rw [a1, b1, h.length_eq]
  · rw [a2, b2, countErrors_perm h]
  · rw [a3, b3, countStatus_perm h 200]
  · rw [a0, b0]
  · intro c
    rw [GoMap.mem_keys_iff, GoMap.mem_keys_iff, hfind c]
  · intro c
    unfold GoMap.get
    rw [hfind c]
  · have n1 : (collectAll l₁).StatusCodes.Nodup := List.Nodup.of_map _ a5
    have n2 : (collectAll l₂).StatusCodes.Nodup := List.Nodup.of_map _ b5
    rw [List.perm_ext_iff_of_nodup n1 n2]
    rintro ⟨k, v⟩
    rw [GoMap.mem_iff_find? _ a5, GoMap.mem_iff_find? _ b5, hfind k]

/-- C4 at the sequences 200, 500, error and error, 500, 200. -/
theorem C4_collect_order_independent_witness :
    (collectAll [⟨200, 1, none⟩, ⟨500, 2, none⟩, ⟨0, 3, some "timeout"⟩]).StatusCodes.Perm
      (collectAll [⟨0, 3, some "timeout"⟩, ⟨500, 2, none⟩, ⟨200, 1, none⟩]).StatusCodes :=
  (C4_collect_order_independent
    [⟨200, 1, none⟩, ⟨500, 2, none⟩, ⟨0, 3, some "timeout"⟩]
    [⟨0, 3, some "timeout"⟩, ⟨500, 2, none⟩, ⟨200, 1, none⟩] (by decide)).2.2.2.2.2.2.2

/-- C5: `validateConfig` returns no error if and only if the URL is non-empty,
Requests > 0, Concurrency > 0 and Concurrency <= Requests; `main` calls
`runLoadTest` exactly in that case and ends in `log.Fatal` in every other one.
Every Config with Concurrency > Requests is rejected, among them Requests = 3,
Concurrency = 5 with a non-empty URL (Scenario 4). -/
theorem C5_validateConfig_accepts_iff_valid (config : Config) :
    (validateConfig config = none ↔
        config.URL ≠ "" ∧ 0 < config.Requests ∧ 0 < config.Concurrency ∧
          config.Concurrency ≤ config.Requests) ∧
    (mainFlow config = MainOutcome.callsRunLoadTest config ↔ validateConfig config = none) ∧
    (validateConfig config ≠ none → ∃ msg, mainFlow config = MainOutcome.fatal msg) ∧
    (config.Concurrency > config.Requests →
        validateConfig config ≠ none ∧ ∃ msg, mainFlow config = MainOutcome.fatal msg) ∧
    (∀ url : String, url ≠ "" →
        validateConfig ⟨url, 3, 5⟩ = some "concurrency cannot be greater than total requests" ∧
        mainFlow ⟨url, 3, 5⟩
          = MainOutcome.fatal "concurrency cannot be greater than total requests") := by
  have hiff : validateConfig config = none ↔
      config.URL ≠ "" ∧ 0 < config.Requests ∧ 0 < config.Concurrency ∧
        config.Concurrency ≤ config.Requests := by
    unfold validateConfig
    constructor
    · intro h
      split_ifs at h with h1 h2 h3 h4
      exact ⟨h1, by omega, by omega, by omega⟩
    · rintro ⟨h1, h2, h3, h4⟩
      rw [if_neg h1, if_neg (by omega), if_neg (by omega), if_neg (by omega)]
  have hfatal : validateConfig config ≠ none → ∃ msg, mainFlow config = MainOutcome.fatal msg := by
    intro h
    cases hv : validateConfig config with
    | none => exact absurd hv h
    | some e => exact ⟨e, by simp [mainFlow, hv]⟩
  refine ⟨hiff, ?_, hfatal, ?_, ?_⟩
  · cases hv : validateConfig config <;> simp [mainFlow, hv]
  · intro hgt
    have hne : validateConfig config ≠ none := by
      intro h
      have := (hiff.1 h).2.2.2
      omega
    exact ⟨hne, hfatal hne⟩
  · intro url hurl
    simp [validateConfig, mainFlow, hurl]

/-- C5 at Requests = 3, Concurrency = 5. -/
theorem C5_validateConfig_accepts_iff_valid_witness :
    validateConfig ⟨"http://localhost:8080", 3, 5⟩ ≠ none ∧
      ∃ msg, mainFlow ⟨"http://localhost:8080", 3, 5⟩ = MainOutcome.fatal msg :=
  (C5_validateConfig_accepts_iff_valid ⟨"http://localhost:8080", 3, 5⟩).2.2.2.1 (by decide)

/-- C9: in every Report folded from a finite sequence of Results, every entry
of StatusCodes has a count between 1 and TotalRequests; StatusCodes is empty
when TotalRequests = 0; and for every entry the divisor TotalRequests of the
percentage of `displayReport` is not zero and the percentage
`count / TotalRequests * 100` (in exact arithmetic) lies in (0, 100]. -/
theorem C9_status_counts_bounded (results : List Result) :
    (∀ k v : Int, (k, v) ∈ (collectAll results).StatusCodes →
        1 ≤ v ∧ v ≤ (collectAll results).TotalRequests) ∧
    ((collectAll results).TotalRequests = 0 → (collectAll results).StatusCodes = []) ∧
    (∀ k v : Int, (k, v) ∈ (collectAll results).StatusCodes →
        (collectAll results).TotalRequests ≠ 0 ∧
        (((collectAll results).TotalRequests : Int) : ℚ) ≠ 0 ∧
        0 < percentage v (collectAll results).TotalRequests ∧
        percentage v (collectAll results).TotalRequests ≤ 100) := by
  obtain ⟨_, h1, _, _, _, _⟩ := collectAll_counts results
  have hbound : ∀ k v : Int, (k, v) ∈ (collectAll results).StatusCodes →
      1 ≤ v ∧ v ≤ (collectAll results).TotalRequests := by
    intro k v hmem
    obtain ⟨hv, hne⟩ := collectAll_entry results k v hmem
    have hle := countStatus_le results k
    rw [h1, hv]
    omega
  refine ⟨hbound, ?_, ?_⟩
  · intro hzero
    cases hm : (collectAll results).StatusCodes with
    | nil => rfl
    | cons e rest =>
      exfalso
      have := hbound e.1 e.2 (by rw [hm]; simp)
      omega
  · intro k v hmem
    obtain ⟨hv1, hv2⟩ := hbound k v hmem
    have hpos : (0 : ℚ) < ((collectAll results).TotalRequests : ℚ) := by
      have : (0 : Int) < (collectAll results).TotalRequests := by omega
      exact_mod_cast this
    have hvpos : (0 : ℚ) < (v : ℚ) := by
      have : (0 : Int) < v := by omega
      exact_mod_cast this
    have hvle : (v : ℚ) ≤ ((collectAll results).TotalRequests : ℚ) := by exact_mod_cast hv2
    refine ⟨by omega, ne_of_gt hpos, ?_, ?_⟩
    · unfold percentage
      positivity
    · unfold percentage
      have : (v : ℚ) / ((collectAll results).TotalRequests : ℚ) ≤ 1 := by
        rw [div_le_one hpos]
        exact hvle
      linarith

/-- C9 at the three Results 200, 200, 500 of Scenario 5, for the entry of 200. -/
theorem C9_status_counts_bounded_witness :
    (1 : Int) ≤ 2 ∧
      (2 : Int) ≤ (collectAll [⟨200, 1, none⟩, ⟨200, 2, none⟩, ⟨500, 3, none⟩]).TotalRequests :=
  (C9_status_counts_bounded [⟨200, 1, none⟩, ⟨200, 2, none⟩, ⟨500, 3, none⟩]).1 200 2 (by decide)

/-- C10: in every Report folded from a finite sequence of Results, SuccessCount
equals `StatusCodes[200]` (0 when 200 is not a key), SuccessCount + ErrorCount
is at most TotalRequests, and the sum of all StatusCodes counts plus ErrorCount
equals TotalRequests. -/
theorem C10_success_is_count_of_200 (results : List Result) :
    (collectAll results).SuccessCount = GoMap.get (collectAll results).StatusCodes 200 ∧
    (collectAll results).SuccessCount + (collectAll results).ErrorCount
      ≤ (collectAll results).TotalRequests ∧
    GoMap.total (collectAll results).StatusCodes + (collectAll results).ErrorCount
      = (collectAll results).TotalRequests := by
  obtain ⟨_, h1, h2, h3, h4, _⟩ := collectAll_counts results
  have hget := find?_of_count _ _ 200 (h4 200)
  have hle := countStatus_add_countErrors_le results 200
  refine ⟨by rw [h3, hget], ?_, collectAll_total results⟩
  rw [h1, h2, h3]
  omega

/-! ## Claims on the goroutine pipeline -/

/-- C1: for every valid Config and every interleaving of the dispatcher, the
workers, the closer and the collecting loop of `runLoadTest`, in every state of
the run the tokens are conserved (tokens not yet sent + tokens queued in
requestChan + requests in flight + Results queued in resultChan + Results
collected = Requests, so no token is lost and none is processed twice), and
every state in which `runLoadTest` has returned has TotalRequests = Requests,
with nothing left in the channels or in flight, the Report being the fold of
`Requests` Results.  The one way a run ends without returning a Report is the
panic of `make` at lines 92-93 when Requests is above what the runtime can
allocate: it happens before anything is started.  Otherwise the run does
return: a state that has neither panicked nor returned always has a step, when
`make` succeeds the run never panics, and every step lowers a bound on the
steps left. -/
theorem C1_report_total_equals_requests (rt : Runtime) (config : Config)
    (hvalid : config.Valid) (s : State) (hs : Reachable rt config s) :
    (config.Requests - tokensSent s) + (s.requestChan.buf.length : Int) + (inFlight s : Int)
        + (s.resultChan.buf.length : Int) + s.report.TotalRequests = config.Requests ∧
    (s.mainPc = MainPc.returned →
        s.panicked = false ∧
        s.report.TotalRequests = config.Requests ∧
        tokensSent s = config.Requests ∧ s.requestChan.buf = [] ∧ inFlight s = 0 ∧
        s.resultChan.buf = [] ∧
        ∃ results t, (results.length : Int) = config.Requests ∧
          s.report = { collectAll results with TotalTime := t }) ∧
    (s.panicked = true →
        (rt.maxChanCap : Int) < config.Requests ∧ s.mainPc = MainPc.start ∧ s.workers = [] ∧
        s.dispatcher = DispatcherPc.notStarted) ∧
    (s.panicked = false → s.mainPc ≠ MainPc.returned → ∃ a t, step rt config s a = some t) ∧
    (config.Requests ≤ (rt.maxChanCap : Int) → s.panicked = false) ∧
    (∀ a t, step rt config s a = some t → stepsLeft config t < stepsLeft config s) := by
  obtain ⟨_, hR, hC, _⟩ := hvalid
  have hinv := inv_of_reachable rt config s hs
  refine ⟨?_, ?_, ?_, ?_, ?_, ?_⟩
  · have := hinv.conserve
    omega
  · intro hret
    obtain ⟨h1, h2, h3, h4, h5⟩ := returned_all_collected rt config s hinv hC hret
    have hp := not_panicked_of_started rt config s hinv (by rw [hret]; simp)
    refine ⟨hp, h5, h1, h2, h3, h4, ?_⟩
    obtain ⟨rs, t, hrep⟩ := hinv.folded
    refine ⟨rs, t, ?_, hrep⟩
    have hlen := (collectAll_counts rs).2.1
    rw [hrep] at h5
    have h6 : (collectAll rs).TotalRequests = config.Requests := h5
    omega
  · intro hp
    obtain ⟨hcause, hstart⟩ := hinv.panic hp
    refine ⟨?_, hstart, (hinv.atStart hstart).1, hinv.dispNot.2 (Or.inl hstart)⟩
    rcases hcause with hneg | hbig
    · omega
    · exact hbig
  · exact fun hp hret => pipeline_progress rt config s hinv hp hret
  · exact fun hL => not_panicked rt config s hinv (by omega) hL
  · exact fun a t h => stepsLeft_decreases rt config s t a h

/-- C1 on a whole run of two requests by two workers. -/
theorem C1_report_total_equals_requests_witness :
    exampleConfig.Valid ∧ Reachable exampleRuntime exampleConfig stateReturned ∧
      stateReturned.report.TotalRequests = exampleConfig.Requests :=
  ⟨⟨by decide, by decide, by decide, by decide⟩, ⟨scheduleComplete, by decide⟩,
    ((C1_report_total_equals_requests exampleRuntime exampleConfig
      ⟨by decide, by decide, by decide, by decide⟩ stateReturned
      ⟨scheduleComplete, by decide⟩).2.1 rfl).2.1⟩

/-- C6: in every state reachable during a run of `runLoadTest` on a Config
(with Concurrency >= 0, as for every Config that `main` passes on), the number
of `client.Get` calls in flight (workers that have claimed a token and not yet
sent its Result) is never more than Concurrency; there are never more than
Concurrency workers, and exactly Concurrency once the spawning loop is over. -/
theorem C6_in_flight_at_most_concurrency (rt : Runtime) (config : Config)
    (hC : 0 ≤ config.Concurrency) (s : State) (hs : Reachable rt config s) :
    (inFlight s : Int) ≤ config.Concurrency ∧
    (s.workers.length : Int) ≤ config.Concurrency ∧
    (s.mainPc = MainPc.goDispatcher ∨ s.mainPc = MainPc.goCloser ∨
      s.mainPc = MainPc.collecting ∨ s.mainPc = MainPc.returned →
        (s.workers.length : Int) = config.Concurrency) := by
  have hinv := inv_of_reachable rt config s hs
  have hb := hinv.bound
  have hle : inFlight s ≤ s.workers.length := List.countP_le_length _
  refine ⟨by omega, by omega, ?_⟩
  intro hpc
  have := hinv.spawned hpc
  omega

/-- C6 in the state where both workers of a run with Concurrency = 2 are in
their `client.Get` call. -/
theorem C6_in_flight_at_most_concurrency_witness :
    (0 : Int) ≤ exampleConfig.Concurrency ∧
      Reachable exampleRuntime exampleConfig stateBothCalling ∧
      inFlight stateBothCalling = 2 ∧
      (inFlight stateBothCalling : Int) ≤ exampleConfig.Concurrency :=
  ⟨by decide, ⟨scheduleBothCalling, by decide⟩, by decide,
    (C6_in_flight_at_most_concurrency exampleRuntime exampleConfig (by decide) stateBothCalling
      ⟨scheduleBothCalling, by decide⟩).1⟩

/-- C7: every Result that `worker` builds from the outcome of one `client.Get`
call has StatusCode 0 (absent) when Error is present, and the numeric status of
the received response, whatever it is, when Error is absent.  One Result is
built per claimed token: a waiting worker claims one token and moves to its
call; a worker in its call builds exactly this Result and moves to its send; a
worker at its send appends exactly that Result to resultChan and goes back to
waiting.  In every reachable state every Result held by a worker or queued in
resultChan has StatusCode 0 when its Error is present. -/
theorem C7_worker_builds_one_wellformed_result (out : GetOutcome) (duration : Int) :
    ((buildResult out duration).Error ≠ none → (buildResult out duration).StatusCode = 0) ∧
    ((buildResult out duration).Error = none →
        ∃ status, out = GetOutcome.response status ∧
          (buildResult out duration).StatusCode = status) ∧
    (∀ status : Int, buildResult (GetOutcome.response status) duration
        = { StatusCode := status, Duration := duration, Error := none }) ∧
    (∀ (resp : Option Int) (e : String), buildResult (GetOutcome.failure resp e) duration
        = { StatusCode := 0, Duration := duration, Error := some e }) ∧
    (∀ (rt : Runtime) (config : Config) (s : State) (w : Nat) (tok : Int) (rest : List Int),
        s.panicked = false → s.workers[w]? = some WorkerPc.waiting →
        s.requestChan.buf = tok :: rest →
        step rt config s (Action.worker w out duration)
          = some { s with requestChan := { s.requestChan with buf := rest },
                          workers := s.workers.set w WorkerPc.calling }) ∧
    (∀ (rt : Runtime) (config : Config) (s : State) (w : Nat),
        s.panicked = false → s.workers[w]? = some WorkerPc.calling →
        step rt config s (Action.worker w out duration)
          = some { s with workers :=
              s.workers.set w (WorkerPc.sending (buildResult out duration)) }) ∧
    (∀ (rt : Runtime) (config : Config) (s : State) (w : Nat) (r : Result),
        Reachable rt config s → s.workers[w]? = some (WorkerPc.sending r) →
        step rt config s (Action.worker w out duration)
          = some { s with resultChan := { s.resultChan with buf := s.resultChan.buf ++ [r] },
                          workers := s.workers.set w WorkerPc.waiting }) ∧
    (∀ (rt : Runtime) (config : Config) (s : State) (r : Result), Reachable rt config s →
        (WorkerPc.sending r ∈ s.workers ∨ r ∈ s.resultChan.buf) →
        r.Error ≠ none → r.StatusCode = 0) := by
  refine ⟨buildResult_error_status out duration, ?_, fun _ => rfl, fun _ _ => rfl, ?_, ?_, ?_, ?_⟩
  · intro h
    cases out with
    | response status => exact ⟨status, rfl, rfl⟩
    | failure resp e => simp [buildResult, GetOutcome.err] at h
  · intro rt config s w tok rest hp hw hq
    simp [step, hp, stepWorker, hw, Chan.recv, hq]
  · intro rt config s w hp hw
    simp [step, hp, stepWorker, hw]
  · intro rt config s w r hs hw
    have hinv := inv_of_reachable rt config s hs
    have hm := mainPc_ne_start_of_worker rt config s hinv w _ hw
    have hp := not_panicked_of_started rt config s hinv hm
    have hsend := worker_send_succeeds rt config s hinv w r hw
    simp [step, hp, stepWorker, hw, hsend]
  · intro rt config s r hs hr
    exact (inv_of_reachable rt config s hs).wellFormed r hr

/-- C7 at a refused connection and at a response with status 503. -/
theorem C7_worker_builds_one_wellformed_result_witness :
    (buildResult (GetOutcome.failure none "connection refused") 7).StatusCode = 0 ∧
      ∃ status, GetOutcome.response 503 = GetOutcome.response status ∧
        (buildResult (GetOutcome.response 503) 7).StatusCode = status :=
  ⟨(C7_worker_builds_one_wellformed_result (GetOutcome.failure none "connection refused") 7).1
      (by decide),
    (C7_worker_builds_one_wellformed_result (GetOutcome.response 503) 7).2.1 (by decide)⟩

/-- C8 (amended): for every Requests >= 0 that the runtime can allocate as a
channel capacity (the two `make` of lines 92-93 succeed; Requests = 0 always
can), the dispatcher goroutine sends exactly Requests tokens on requestChan and
then closes it: the run never panics; in every reachable state the dispatcher
has sent between 0 and Requests tokens; requestChan is closed exactly when the
dispatcher has finished, and then exactly Requests tokens were sent; while
fewer are sent its next step is a send that succeeds at once (it is never
blocked), after the last one its next step is the close, and once finished it
has no step.  Given Requests = 0 it sends no token and its only step is the
close; no Result is ever collected, so the Report has TotalRequests 0 and
empty StatusCodes.  With at least one worker, `runLoadTest` returns only after
the channel is closed and all Requests tokens were sent.  The run ends: some
goroutine can step until `runLoadTest` has returned, and every step lowers a
bound on the steps left. -/
theorem C8_dispatcher_sends_requests_then_closes (rt : Runtime) (config : Config)
    (hR : 0 ≤ config.Requests) (hL : config.Requests ≤ (rt.maxChanCap : Int))
    (s : State) (hs : Reachable rt config s) :
    s.panicked = false ∧
    (0 ≤ tokensSent s ∧ tokensSent s ≤ config.Requests) ∧
    (s.requestChan.closed = true ↔ ∃ i, s.dispatcher = DispatcherPc.finished i) ∧
    (s.requestChan.closed = true → tokensSent s = config.Requests) ∧
    (∀ i, s.dispatcher = DispatcherPc.looping i → i < config.Requests →
        step rt config s Action.dispatcher
          = some { s with requestChan := { s.requestChan with buf := s.requestChan.buf ++ [i] },
                          dispatcher := DispatcherPc.looping (i + 1) }) ∧
    (∀ i, s.dispatcher = DispatcherPc.looping i → ¬ i < config.Requests →
        i = config.Requests ∧
        step rt config s Action.dispatcher
          = some { s with requestChan := { s.requestChan with closed := true },
                          dispatcher := DispatcherPc.finished i }) ∧
    (∀ i, s.dispatcher = DispatcherPc.finished i → step rt config s Action.dispatcher = none) ∧
    (config.Requests = 0 →
        tokensSent s = 0 ∧ s.requestChan.buf = [] ∧ s.report.TotalRequests = 0 ∧
        s.report.StatusCodes = []) ∧
    (0 < config.Concurrency → s.mainPc = MainPc.returned →
        s.requestChan.closed = true ∧ tokensSent s = config.Requests) ∧
    (s.mainPc ≠ MainPc.returned → ∃ a t, step rt config s a = some t) ∧
    (∀ a t, step rt config s a = some t → stepsLeft config t < stepsLeft config s) := by
  have hinv := inv_of_reachable rt config s hs
  have hp := not_panicked rt config s hinv hR hL
  refine ⟨hp, tokensSent_bounds rt config s hinv hR, hinv.reqClosed, ?_, ?_, ?_, ?_, ?_, ?_, ?_,
    ?_⟩
  · intro hcl
    obtain ⟨i, hd⟩ := hinv.reqClosed.1 hcl
    have := hinv.fin i hd
    simp [tokensSent, hd, this]
  · intro i hd hlt
    have hsend := dispatcher_send_succeeds rt config s hinv i hd hlt
    simp [step, hp, stepDispatcher, hd, hlt, hsend]
  · intro i hd hlt
    have hb := hinv.loop i hd
    have hcl : s.requestChan.closed = false := by
      cases hc : s.requestChan.closed with
      | false => rfl
      | true =>
        obtain ⟨j, hj⟩ := hinv.reqClosed.1 hc
        rw [hd] at hj
        cases hj
    refine ⟨by omega, ?_⟩
    simp [step, hp, stepDispatcher, hd, hlt, Chan.close, hcl]
  · intro i hd
    simp [step, hp, stepDispatcher, hd]
  · exact report_empty_of_no_requests rt config s hinv
  · intro hC hret
    obtain ⟨h1, _, _, _, _⟩ := returned_all_collected rt config s hinv hC hret
    have hd : ∃ i, s.dispatcher = DispatcherPc.finished i := by
      cases hdz : s.dispatcher with
      | finished i => exact ⟨i, rfl⟩
      | notStarted =>
        have := hinv.dispNot.1 hdz
        rw [hret] at this
        simp at this
      | looping i =>
        exfalso
        have hex := hinv.spawned (Or.inr (Or.inr (Or.inr hret)))
        obtain ⟨hcl, _⟩ := hinv.ret hret
        have hwg := hinv.closerFin (hinv.resClosed.1 hcl)
        have hlive := hinv.wgLive
        have hne : s.workers ≠ [] := by
          intro hnil
          rw [hnil] at hex
          simp at hex
          omega
        obtain ⟨pc, hpc⟩ := List.exists_mem_of_ne_nil s.workers hne
        have hzero : s.workers.countP WorkerPc.live = 0 := by omega
        have hpcl := List.countP_eq_zero.1 hzero pc hpc
        have hpce : pc = WorkerPc.exited := by
          cases pc <;> simp [WorkerPc.live] at hpcl ⊢
        rw [hpce] at hpc
        obtain ⟨j, hj⟩ := hinv.reqClosed.1 (hinv.exitedW hpc).1
        rw [hdz] at hj
        cases hj
    exact ⟨hinv.reqClosed.2 hd, h1⟩
  · exact pipeline_progress rt config s hinv hp
  · exact fun a t h => stepsLeft_decreases rt config s t a h

/-- C8 (amended) on a whole run with Requests = 2: the channel is closed and
two tokens were sent. -/
theorem C8_dispatcher_sends_requests_then_closes_witness :
    (0 : Int) ≤ exampleConfig.Requests ∧
      exampleConfig.Requests ≤ (exampleRuntime.maxChanCap : Int) ∧
      Reachable exampleRuntime exampleConfig stateReturned ∧
      stateReturned.requestChan.closed = true ∧ tokensSent stateReturned = 2 :=
  ⟨by decide, by decide, ⟨scheduleComplete, by decide⟩, rfl,
    (C8_dispatcher_sends_requests_then_closes exampleRuntime exampleConfig (by decide)
      (by decide) stateReturned ⟨scheduleComplete, by decide⟩).2.2.2.1 rfl⟩

/-- C8 as stated fails at Requests = 2^62, a size `validateConfig` accepts:
`make` panics at line 92, the panicked state has no step, and in every state
of the run the dispatcher is not started, no token was sent (not 2^62 of them)
and requestChan is not closed; the run never returns. -/
theorem C8_counterexample_make_panics :
    (0 : Int) ≤ hugeConfig.Requests ∧
    validateConfig hugeConfig = none ∧
    run exampleRuntime hugeConfig initState [Action.main 0]
      = some { initState with panicked := true } ∧
    (∀ a, step exampleRuntime hugeConfig { initState with panicked := true } a = none) ∧
    (∀ s, Reachable exampleRuntime hugeConfig s →
        s.mainPc = MainPc.start ∧ s.mainPc ≠ MainPc.returned ∧
        s.dispatcher = DispatcherPc.notStarted ∧ tokensSent s = 0 ∧
        tokensSent s ≠ hugeConfig.Requests ∧ s.requestChan.closed = false) := by
  refine ⟨by decide, by decide, by decide, fun a => by simp [step], ?_⟩
  intro s hs
  have hinv := inv_of_reachable exampleRuntime hugeConfig s hs
  obtain ⟨h1, h2, h3, h4, _⟩ :=
    stays_at_start_of_no_alloc exampleRuntime hugeConfig s hinv (by decide)
  refine ⟨h1, by rw [h1]; simp, h2, h3, ?_, h4⟩
  rw [h3]
  decide

end LoadTest
